import Mathlib

/-!
# logrus-formatter

A shallow embedding of `logrus_formatter.go` (package `logrus_formatter`), followed by
the properties proved about the line it writes.

Modelling conventions.

* A Go `string` is a Lean `String`; text is restricted to valid UTF-8, for which
  Go's bytewise comparison agrees with the order of the character lists.
* `bytes.Buffer` is the text written so far; a function that writes to the
  buffer takes the buffer and returns the extended buffer.
* A Go pointer that may be `nil` is an `Option`; a nil map is `none`.
* A run-time panic is the error of `Except Panic`.
* A Go map that the code ranges over is an association list; the order of the
  list is the order in which that particular `range` enumerates the keys.
* The goroutine id returned by `goid.Get()` is an explicit argument `goId`.
* `time.Time` is represented by its `Format` method.
-/

namespace LogrusFormatter

/-! ## Go run time and standard library -/

/-- Run-time panics that the modelled code can raise. -/
inductive Panic where
  | nilDereference
  | sliceOutOfRange
  | nilMapAssignment
  deriving DecidableEq, Repr

/-- Output buffer `bytes.Buffer`, as the text written so far. -/
abbrev Buffer := String

/-- Dereference of a pointer: a nil pointer panics. -/
def deref {α : Type} : Option α → Except Panic α
  | none => Except.error Panic.nilDereference
  | some a => Except.ok a

/-- The verb `%d` applied to an integer: decimal digits with a leading minus sign. -/
def fmtD : Int → String
  | Int.ofNat n => Nat.repr n
  | Int.negSucc n => "-" ++ Nat.repr (n + 1)

/-- Values that an `interface{}` field can hold in this model. -/
inductive Value where
  | nil
  | bool (b : Bool)
  | int (i : Int)
  | str (s : String)
  deriving DecidableEq, Repr

/-- The verb `%v` applied to a field value. -/
def fmtV : Value → String
  | Value.nil => "<nil>"
  | Value.bool true => "true"
  | Value.bool false => "false"
  | Value.int i => fmtD i
  | Value.str s => s

/-- The escape character `\x1b`. -/
def ESC : Char := Char.ofNat 27

/-- The string `"\x1b["` that opens every colour escape written by the formatter. -/
def escOpen : String := String.mk [ESC, Char.ofNat 91]

/-- The result of `fmt.Fprintf(b, "\x1b[%dm", c)` on an empty buffer. -/
def colorEscape (c : Int) : String := escOpen ++ fmtD c ++ "m"

/-- The reset escape `"\x1b[0m"`. -/
def resetEscape : String := escOpen ++ "0m"

/-- Layout constant `time.RFC3339`. -/
def RFC3339 : String := "2006-01-02T15:04:05Z07:00"

/-- Layout constant `time.StampMilli`. -/
def StampMilli : String := "Jan _2 15:04:05.000"

/-- Go string comparison `a <= b`: lexicographic on the text. -/
def strLE (a b : String) : Prop := a.data ≤ b.data

instance strLE.decidable : DecidableRel strLE := fun a b =>
  inferInstanceAs (Decidable (a.data ≤ b.data))

/-- The function `sort.Strings`: ascending order under string comparison. -/
def sortStrings (l : List String) : List String := l.insertionSort strLE

/-- Upper-casing of one character by `strings.ToUpper`, on the ASCII range. -/
def upperChar (c : Char) : Char :=
  if 97 ≤ c.toNat ∧ c.toNat ≤ 122 then Char.ofNat (c.toNat - 32) else c

/-- The function `strings.ToUpper`, applied in `Format` to level names only, which are ASCII. -/
def ToUpper (s : String) : String := String.mk (s.data.map upperChar)

/-- The slice expression `s[:n]`; out of range it panics.  Used on level names, which are
ASCII, so that byte offsets and character offsets agree. -/
def sliceTo (s : String) (n : Nat) : Except Panic String :=
  if n ≤ s.length then Except.ok (String.mk (s.data.take n)) else Except.error Panic.sliceOutOfRange

/-- White space in the sense of `unicode.IsSpace`. -/
def isSpace (c : Char) : Bool :=
  let n := c.toNat
  (9 ≤ n && n ≤ 13) || n == 32 || n == 0x85 || n == 0xA0 || n == 0x1680 ||
  (0x2000 ≤ n && n ≤ 0x200a) || n == 0x2028 || n == 0x2029 || n == 0x202f ||
  n == 0x205f || n == 0x3000

/-- The function `strings.TrimSpace`: leading and trailing white space removed. -/
def TrimSpace (s : String) : String :=
  String.mk ((s.data.dropWhile isSpace).reverse.dropWhile isSpace).reverse

/-! ## `fmt.Fprintf` with a format string and no operands

`writeCaller` passes the text returned by the custom caller formatter to `fmt.Fprintf` as the
format string, without operands.  The definitions below follow `(*pp).doPrintf` of package
`fmt` for an empty operand list: the argument number stays `0`, every verb other than `%`
finds no operand. -/

/-- Bound `tooLarge` of package `fmt`. -/
def tooLarge (x : Nat) : Bool := decide (x > 1000000)

/-- The digit loop of `parsenum`: `none` when the number is too large. -/
def parsenumLoop : List Char → Nat → Bool → Option (Bool × List Char)
  | [], _, isnum => some (isnum, [])
  | c :: cs, num, isnum =>
    if 48 ≤ c.toNat ∧ c.toNat ≤ 57 then
      if tooLarge num then none
      else parsenumLoop cs (num * 10 + (c.toNat - 48)) true
    else some (isnum, c :: cs)

/-- The function `parsenum` on the text from `start` to `end`: whether a number was read and
the text left.  On overflow the position jumps to `end`, so nothing is left. -/
def parsenum (s : List Char) : Bool × List Char :=
  match s with
  | [] => (false, [])
  | _ :: _ =>
    match parsenumLoop s 0 false with
    | none => (false, [])
    | some r => r

/-- Length in bytes of a text. -/
def byteLen (s : List Char) : Nat := (s.map Char.utf8Size).sum

/-- The function `parseArgNumber` on text that starts with `[`: the text after the bracket
expression and whether the expression is a well-formed `[n]`. -/
def parseArgNumber (s : List Char) : List Char × Bool :=
  if byteLen s < 3 then (s.drop 1, false)
  else
    let body := s.drop 1
    let inner := body.takeWhile (fun c => c != Char.ofNat 93)
    let after := body.dropWhile (fun c => c != Char.ofNat 93)
    match after with
    | [] => (s.drop 1, false)
    | _ :: rest =>
      let r := parsenum inner
      if !r.1 || r.2 != [] then (rest, false) else (rest, true)

/-- State of the scan of one verb: text left, `afterIndex`, `goodArgNum`. -/
structure VerbScan where
  rest : List Char
  afterIndex : Bool
  goodArgNum : Bool

/-- The method `argNumber` with no operands: an index can never be in range, so a bracket
expression always clears `goodArgNum`. -/
def argNumber (v : VerbScan) : VerbScan :=
  match v.rest with
  | [] => { v with afterIndex := false }
  | c :: cs =>
    if c = Char.ofNat 91 then
      let r := parseArgNumber (c :: cs)
      { rest := r.1, afterIndex := r.2, goodArgNum := false }
    else { v with afterIndex := false }

/-- Whether a character is one of the flags `#`, `0`, `+`, `-` and space. -/
def isFlag (c : Char) : Bool :=
  c == Char.ofNat 35 || c == Char.ofNat 48 || c == Char.ofNat 43 || c == Char.ofNat 45 ||
  c == Char.ofNat 32

/-- Width part of a verb: the text written for a bad width and the scan state after it. -/
def scanWidth (v : VerbScan) : String × VerbScan :=
  match v.rest with
  | c :: cs =>
    if c = Char.ofNat 42 then ("%!(BADWIDTH)", { v with rest := cs, afterIndex := false })
    else
      let r := parsenum (c :: cs)
      ("", { v with rest := r.2, goodArgNum := v.goodArgNum && !(v.afterIndex && r.1) })
  | [] => ("", v)

/-- Precision part of a verb: the text written for a bad precision and the scan state. -/
def scanPrecision (v : VerbScan) : String × VerbScan :=
  match v.rest with
  | c :: cs =>
    if c = Char.ofNat 46 then
      let v1 : VerbScan := { v with rest := cs, goodArgNum := v.goodArgNum && !v.afterIndex }
      let v2 := argNumber v1
      match v2.rest with
      | d :: ds =>
        if d = Char.ofNat 42 then ("%!(BADPREC)", { v2 with rest := ds, afterIndex := false })
        else ("", { v2 with rest := (parsenum (d :: ds)).2 })
      | [] => ("", v2)
    else ("", v)
  | [] => ("", v)

/-- The loop `formatLoop` of `doPrintf` with no operands; `fuel` bounds the number of verbs. -/
def doPrintfLoop : Nat → List Char → String → String
  | 0, _, out => out
  | fuel + 1, format, out =>
    let out := out ++ String.mk (format.takeWhile (fun c => c != Char.ofNat 37))
    match format.dropWhile (fun c => c != Char.ofNat 37) with
    | [] => out
    | _ :: afterPercent =>
      let v0 : VerbScan :=
        { rest := afterPercent.dropWhile isFlag, afterIndex := false, goodArgNum := true }
      let v1 := argNumber v0
      let w := scanWidth v1
      let p := scanPrecision w.2
      let v3 := if !p.2.afterIndex then argNumber p.2 else p.2
      let out := out ++ w.1 ++ p.1
      match v3.rest with
      | [] => out ++ "%!(NOVERB)"
      | verb :: rest =>
        if verb = Char.ofNat 37 then doPrintfLoop fuel rest (out ++ "%")
        else if !v3.goodArgNum then
          doPrintfLoop fuel rest (out ++ "%!" ++ String.singleton verb ++ "(BADINDEX)")
        else doPrintfLoop fuel rest (out ++ "%!" ++ String.singleton verb ++ "(MISSING)")

/-- The call `fmt.Fprintf(b, format)` with no operands.  Every verb consumes at least its
`%`, so the length of the format bounds the number of verbs. -/
def Fprintf0 (b : Buffer) (format : String) : Buffer :=
  doPrintfLoop (format.length + 1) format.data b

/-! ## Data model -/

/-- The type `runtime.Frame`, with the members that the formatter reads. -/
structure Frame where
  File : String
  Line : Int
  Function : String

/-- The type `logrus.Logger`, with the member that `HasCaller` reads. -/
structure Logger where
  ReportCaller : Bool

/-- The type `time.Time`, given by what its method `Format` returns for a layout. -/
structure Time where
  Format : String → String

/-- The type `logrus.Level`, an unsigned number. -/
abbrev Level := Nat

/-- Level `logrus.PanicLevel`. -/
def PanicLevel : Level := 0
/-- Level `logrus.FatalLevel`. -/
def FatalLevel : Level := 1
/-- Level `logrus.ErrorLevel`. -/
def ErrorLevel : Level := 2
/-- Level `logrus.WarnLevel`. -/
def WarnLevel : Level := 3
/-- Level `logrus.InfoLevel`. -/
def InfoLevel : Level := 4
/-- Level `logrus.DebugLevel`. -/
def DebugLevel : Level := 5
/-- Level `logrus.TraceLevel`. -/
def TraceLevel : Level := 6

/-- The method `logrus.Level.String`: the name of a level, `unknown` outside the seven. -/
def LevelString (level : Level) : String :=
  if level = TraceLevel then "trace"
  else if level = DebugLevel then "debug"
  else if level = InfoLevel then "info"
  else if level = WarnLevel then "warning"
  else if level = ErrorLevel then "error"
  else if level = FatalLevel then "fatal"
  else if level = PanicLevel then "panic"
  else "unknown"

/-- The type `logrus.Fields`, a `map[string]interface{}`: `none` is the nil map, and the list
gives the entries in the order in which `range` enumerates them. -/
structure Fields where
  items : Option (List (String × Value))

/-- Entries of a field map; the nil map has none. -/
def Fields.entries (d : Fields) : List (String × Value) := d.items.getD []

/-- The expression `len(entry.Data)`. -/
def Fields.len (d : Fields) : Nat := d.entries.length

/-- The keys produced by `for field := range entry.Data`, in enumeration order. -/
def Fields.range (d : Fields) : List String := d.entries.map Prod.fst

/-- The expression `v, ok := entry.Data[field]`. -/
def Fields.get? (d : Fields) (field : String) : Option Value := d.entries.lookup field

/-- The expression `entry.Data[field]`: the nil interface for an absent key. -/
def Fields.index (d : Fields) (field : String) : Value := (d.get? field).getD Value.nil

/-- A Go map holds every key once. -/
def Fields.WF (d : Fields) : Prop := d.range.Nodup

instance Fields.decidableWF (d : Fields) : Decidable d.WF :=
  inferInstanceAs (Decidable d.range.Nodup)

/-- The type `logrus.Entry`, with the members that the formatter reads. -/
structure Entry where
  Logger : Option Logger
  Data : Fields
  Time : Time
  Level : Level
  Caller : Option Frame
  Message : String

/-- The method `logrus.Entry.HasCaller`. -/
def Entry.HasCaller (entry : Entry) : Bool :=
  match entry.Logger, entry.Caller with
  | some logger, some _ => logger.ReportCaller
  | _, _ => false

/-- The type `sync.RWMutex`; in a sequential run locking and unlocking change nothing. -/
structure RWMutex where
  deriving DecidableEq

/-- The type `CtxMap`: the registry `m` from goroutine id to context id and its lock. -/
structure CtxMap where
  m : Option (List (Int × String))
  locker : Option RWMutex

/-- The type `Formatter`. -/
structure Formatter where
  FieldsOrder : Option (List String)
  TimestampFormat : String
  HideKeys : Bool
  NoColors : Bool
  NoFieldsColors : Bool
  NoFieldsSpace : Bool
  ShowFullLevel : Bool
  NoUppercaseLevel : Bool
  TrimMessages : Bool
  CallerFirst : Bool
  CustomCallerFormatter : Option (Frame → String)
  DisableGoId : Bool
  CtxMap : Option CtxMap

/-- The zero value `Formatter{}`. -/
def Formatter.zero : Formatter :=
  { FieldsOrder := none, TimestampFormat := "", HideKeys := false, NoColors := false,
    NoFieldsColors := false, NoFieldsSpace := false, ShowFullLevel := false,
    NoUppercaseLevel := false, TrimMessages := false, CallerFirst := false,
    CustomCallerFormatter := none, DisableGoId := false, CtxMap := none }

/-- The constructor `NewFormatter`. -/
def NewFormatter (disableGoId : Bool) : Formatter :=
  let ctxMap : CtxMap := { m := some [], locker := some {} }
  { Formatter.zero with HideKeys := true, CtxMap := some ctxMap, DisableGoId := disableGoId }

/-! ## Colours -/

/-- Constant `colorRed`. -/
def colorRed : Int := 31
/-- Constant `colorYellow`. -/
def colorYellow : Int := 33
/-- Constant `colorPink`. -/
def colorPink : Int := 35
/-- Constant `colorBlue`. -/
def colorBlue : Int := 36
/-- Constant `colorGray`. -/
def colorGray : Int := 37

/-- The function `getColorByLevel`. -/
def getColorByLevel (level : Level) : Int :=
  if level = DebugLevel ∨ level = TraceLevel then colorGray
  else if level = WarnLevel then colorYellow
  else if level = ErrorLevel ∨ level = FatalLevel ∨ level = PanicLevel then colorRed
  else colorBlue

/-! ## The registry of context ids -/

/-- The expression `ctxId, ok := m[goId]`; reading a nil map finds nothing. -/
def registryGet (m : Option (List (Int × String))) (goId : Int) : Option String :=
  (m.getD []).lookup goId

/-- The statement `m[goId] = ctxId`; writing to a nil map panics. -/
def registrySet (m : Option (List (Int × String))) (goId : Int) (ctxId : String) :
    Except Panic (Option (List (Int × String))) :=
  match m with
  | none => Except.error Panic.nilMapAssignment
  | some l => Except.ok (some ((goId, ctxId) :: l.filter (fun p => p.1 != goId)))

/-- The statement `delete(m, goId)`; on a nil map it does nothing. -/
def registryDelete (m : Option (List (Int × String))) (goId : Int) :
    Option (List (Int × String)) :=
  m.map (fun l => l.filter (fun p => p.1 != goId))

/-- The method `getCtxId`, run on goroutine `goId`. -/
def getCtxId (f : Formatter) (goId : Int) : Except Panic String := do
  let ctxMap ← deref f.CtxMap
  let _ ← deref ctxMap.locker
  match registryGet ctxMap.m goId with
  | none => pure ("<" ++ fmtD goId ++ "> ")
  | some ctxId => pure ("<" ++ ctxId ++ "> ")

/-- The method `SetCtxId`, run on goroutine `goId`: the formatter with the registry updated. -/
def SetCtxId (f : Formatter) (goId : Int) (ctxId : String) : Except Panic Formatter := do
  let ctxMap ← deref f.CtxMap
  let _ ← deref ctxMap.locker
  let m ← registrySet ctxMap.m goId ctxId
  pure { f with CtxMap := some { ctxMap with m := m } }

/-- The method `CleatCtxId`, run on goroutine `goId`. -/
def CleatCtxId (f : Formatter) (goId : Int) : Except Panic Formatter := do
  let ctxMap ← deref f.CtxMap
  let _ ← deref ctxMap.locker
  pure { f with CtxMap := some { ctxMap with m := registryDelete ctxMap.m goId } }

/-- The method `SetDisableGoId`. -/
def SetDisableGoId (f : Formatter) (v : Bool) : Formatter := { f with DisableGoId := v }

/-! ## Writing the line -/

/-- The method `writeCaller`. -/
def writeCaller (f : Formatter) (b : Buffer) (entry : Entry) : Buffer :=
  if entry.HasCaller then
    match entry.Caller with
    | none => b
    | some caller =>
      let b := b ++ colorEscape colorPink
      match f.CustomCallerFormatter with
      | some custom => Fprintf0 b (custom caller)
      | none => b ++ " (" ++ caller.File ++ ":" ++ fmtD caller.Line ++ " " ++ caller.Function ++ ") "
  else b

/-- The method `writeField`. -/
def writeField (f : Formatter) (b : Buffer) (entry : Entry) (field : String) : Buffer :=
  let b :=
    if f.HideKeys then b ++ "<" ++ fmtV (entry.Data.index field) ++ ">"
    else b ++ "<" ++ field ++ ":" ++ fmtV (entry.Data.index field) ++ ">"
  if !f.NoFieldsSpace then b ++ " " else b

/-- The method `writeFields`. -/
def writeFields (f : Formatter) (b : Buffer) (entry : Entry) : Buffer :=
  if entry.Data.len ≠ 0 then
    let fields := sortStrings entry.Data.range
    fields.foldl (fun b field => writeField f b entry field) b
  else b

/-- State of the first loop of `writeOrderedFields`. -/
structure OrderedLoop where
  foundFieldsMap : List String
  length : Int
  b : Buffer

/-- One round of the loop over `f.FieldsOrder` in `writeOrderedFields`. -/
def orderedStep (f : Formatter) (entry : Entry) (s : OrderedLoop) (field : String) :
    OrderedLoop :=
  match entry.Data.get? field with
  | some _ =>
    { foundFieldsMap := field :: s.foundFieldsMap, length := s.length - 1,
      b := writeField f s.b entry field }
  | none => s

/-- The method `writeOrderedFields`. -/
def writeOrderedFields (f : Formatter) (b : Buffer) (entry : Entry) : Buffer :=
  let s0 : OrderedLoop := { foundFieldsMap := [], length := entry.Data.len, b := b }
  let s := (f.FieldsOrder.getD []).foldl (orderedStep f entry) s0
  if s.length > 0 then
    let notFoundFields := entry.Data.range.filter (fun field => !s.foundFieldsMap.contains field)
    let notFoundFields := sortStrings notFoundFields
    notFoundFields.foldl (fun b field => writeField f b entry field) s.b
  else s.b

/-- The method `Format`, run on goroutine `goId`: the bytes and the error returned, or the
panic raised. -/
def Format (f : Formatter) (goId : Int) (entry : Entry) :
    Except Panic (String × Option String) := do
  let levelColor := getColorByLevel entry.Level
  let timestampFormat := if f.TimestampFormat = "" then RFC3339 else f.TimestampFormat
  let b : Buffer := ""
  let level := if f.NoUppercaseLevel then LevelString entry.Level
    else ToUpper (LevelString entry.Level)
  let b := if f.CallerFirst then writeCaller f b entry else b
  let b := if !f.NoColors then b ++ colorEscape levelColor else b
  let b ← (if !f.DisableGoId then (getCtxId f goId).map (fun s => b ++ s) else pure b)
  let b := b ++ entry.Time.Format timestampFormat
  let b := b ++ " ["
  let b ← (if f.ShowFullLevel then pure (b ++ level) else (sliceTo level 4).map (fun s => b ++ s))
  let b := b ++ "]"
  let b := if !f.CallerFirst then writeCaller f b entry else b
  let b := if !f.NoColors && f.NoFieldsColors then b ++ resetEscape else b
  let b := if f.FieldsOrder.isNone then writeFields f b entry else writeOrderedFields f b entry
  let b := if f.NoFieldsSpace then b ++ " " else b
  let b := if !f.NoColors && !f.NoFieldsColors then b ++ resetEscape else b
  let b := if f.TrimMessages then b ++ TrimSpace entry.Message else b ++ entry.Message
  let b := b ++ "\n"
  return (b, none)

/-! ## The parts of the line

Each definition below is the text that one stretch of `Format` appends to the buffer;
`Format_eq_parts` shows that the line is their concatenation. -/

/-- Text of the caller block when `CallerFirst` is set (source lines 96 to 98). -/
def callerFirstText (f : Formatter) (entry : Entry) : String :=
  if f.CallerFirst then writeCaller f "" entry else ""

/-- Text of the colour escape of the level (source lines 100 to 102). -/
def levelColorText (f : Formatter) (entry : Entry) : String :=
  if !f.NoColors then colorEscape (getColorByLevel entry.Level) else ""

/-- Text of the context id (source lines 104 to 107), or the panic of the lookup. -/
def ctxIdText (f : Formatter) (goId : Int) : Except Panic String :=
  if !f.DisableGoId then getCtxId f goId else pure ""

/-- Layout with which the time stamp is rendered (source lines 80 to 83). -/
def timestampLayout (f : Formatter) : String :=
  if f.TimestampFormat = "" then RFC3339 else f.TimestampFormat

/-- Name of the level in the case chosen by `NoUppercaseLevel` (source lines 89 to 94). -/
def levelName (f : Formatter) (entry : Entry) : String :=
  if f.NoUppercaseLevel then LevelString entry.Level else ToUpper (LevelString entry.Level)

/-- Text between the brackets (source lines 112 to 116), with the slice taken as a list
operation. -/
def levelShown (f : Formatter) (entry : Entry) : String :=
  if f.ShowFullLevel then levelName f entry else String.mk ((levelName f entry).data.take 4)

/-- Text of the caller block when `CallerFirst` is not set (source lines 119 to 121). -/
def callerAfterText (f : Formatter) (entry : Entry) : String :=
  if !f.CallerFirst then writeCaller f "" entry else ""

/-- Text of the reset escape written before the fields (source lines 123 to 125). -/
def resetBeforeFieldsText (f : Formatter) : String :=
  if !f.NoColors && f.NoFieldsColors then resetEscape else ""

/-- Text of the field section (source lines 127 to 132). -/
def fieldsText (f : Formatter) (entry : Entry) : String :=
  if f.FieldsOrder.isNone then writeFields f "" entry else writeOrderedFields f "" entry

/-- Text of the space written after the fields (source lines 134 to 136). -/
def fieldsSpaceText (f : Formatter) : String :=
  if f.NoFieldsSpace then " " else ""

/-- Text of the reset escape written after the fields (source lines 138 to 140). -/
def resetAfterFieldsText (f : Formatter) : String :=
  if !f.NoColors && !f.NoFieldsColors then resetEscape else ""

/-- Text of the message (source lines 142 to 146). -/
def messageText (f : Formatter) (entry : Entry) : String :=
  if f.TrimMessages then TrimSpace entry.Message else entry.Message

/-- Text that `Format` writes after the closing bracket of the level. -/
def afterLevelText (f : Formatter) (entry : Entry) : String :=
  callerAfterText f entry ++ resetBeforeFieldsText f ++ fieldsText f entry ++
    fieldsSpaceText f ++ resetAfterFieldsText f ++ messageText f entry ++ "\n"

/-- Text of one field segment: what `writeField` appends. -/
def fieldSegment (f : Formatter) (entry : Entry) (field : String) : String :=
  writeField f "" entry field

/-- Concatenation of a list of texts. -/
def concat : List String → String
  | [] => ""
  | s :: l => s ++ concat l

/-- The seven named levels. -/
def isNamedLevel (level : Level) : Prop := level ≤ 6

instance isNamedLevel.decidable (level : Level) : Decidable (isNamedLevel level) :=
  inferInstanceAs (Decidable (level ≤ 6))

instance strLE.isTotal : IsTotal String strLE := ⟨fun a b => le_total a.data b.data⟩

instance strLE.isTrans : IsTrans String strLE :=
  ⟨fun a b c h₁ h₂ =>
    (le_trans (show a.data ≤ b.data from h₁) (show b.data ≤ c.data from h₂) : a.data ≤ c.data)⟩

instance strLE.isAntisymm : IsAntisymm String strLE :=
  ⟨fun a b h₁ h₂ =>
    String.ext (le_antisymm (show a.data ≤ b.data from h₁) (show b.data ≤ a.data from h₂))⟩

/-- Names of `order` that are keys of the field map, in the order of `order`. -/
def presentNames (entry : Entry) (order : List String) : List String :=
  order.filter (fun field => (entry.Data.get? field).isSome)

/-! ## Sample inputs -/

/-- Sample time stamp: renders as the layout between brackets. -/
def sampleTime : Time := { Format := fun layout => "T(" ++ layout ++ ")" }

/-- Sample event: level warn, message `" hi "`, fields `{z: 1, a: 2}`, no caller. -/
def sampleEntry : Entry :=
  { Logger := none, Data := { items := some [("z", Value.int 1), ("a", Value.int 2)] },
    Time := sampleTime, Level := WarnLevel, Caller := none, Message := " hi " }

/-- Sample event with the fields `{c: 1, a: 2, b: 3}` enumerated in the order of `items`. -/
def orderedEntry (items : List (String × Value)) : Entry :=
  { sampleEntry with Data := { items := some items } }

/-- Sample event with caller information: the sample event logged from `main.go:12`. -/
def callerEntry : Entry :=
  { sampleEntry with
    Logger := some { ReportCaller := true },
    Caller := some { File := "main.go", Line := 12, Function := "main.f" } }

/-- The formatter of `NewFormatter(false)` with `NoColors` set and the registry `reg`. -/
def plainFormatter (reg : List (Int × String)) (l : RWMutex) : Formatter :=
  { NewFormatter false with NoColors := true, CtxMap := some { m := some reg, locker := some l } }

/-- The registry map that the formatter points to, if any. -/
def Formatter.registry (f : Formatter) : Option (List (Int × String)) :=
  f.CtxMap.bind (fun c => c.m)

/-- The entry of goroutine `goId` in the registry of the formatter, if any. -/
def Formatter.ctxIdOf (f : Formatter) (goId : Int) : Option String :=
  registryGet f.registry goId

/-- The identities that have an entry in the registry of the formatter, one per entry. -/
def Formatter.registryKeys (f : Formatter) : List Int :=
  (f.registry.getD []).map Prod.fst

/-- Text between the angle brackets of a field segment, with the brackets. -/
def fieldBracket (f : Formatter) (entry : Entry) (field : String) : String :=
  if f.HideKeys then "<" ++ fmtV (entry.Data.index field) ++ ">"
  else "<" ++ field ++ ":" ++ fmtV (entry.Data.index field) ++ ">"

/-- Names whose segments `writeOrderedFields` writes, in the order of writing. -/
def orderedNames (f : Formatter) (entry : Entry) : List String :=
  if (entry.Data.len : Int) - (presentNames entry (f.FieldsOrder.getD [])).length > 0 then
    presentNames entry (f.FieldsOrder.getD []) ++
      sortStrings (entry.Data.range.filter (fun field =>
        !(presentNames entry (f.FieldsOrder.getD [])).reverse.contains field))
  else presentNames entry (f.FieldsOrder.getD [])

/-- Names whose segments `Format` writes, in the order of writing. -/
def writtenNames (f : Formatter) (entry : Entry) : List String :=
  if f.FieldsOrder.isNone then sortStrings entry.Data.range else orderedNames f entry

/-- Sample custom caller formatter: the line number slot is left as a format directive. -/
def directiveCaller : Frame → String := fun caller => " (" ++ caller.File ++ ":%d) "

/-- Sample custom caller formatter: text that ends in a percent sign. -/
def percentCaller : Frame → String := fun _ => " 100%"

/-! ## Helper lemmas -/

theorem strLE_total (a b : String) : strLE a b ∨ strLE b a := le_total a.data b.data

theorem strLE_iff_le (a b : String) : strLE a b ↔ a ≤ b := String.le_iff_toList_le.symm

theorem sortStrings_perm (l : List String) : (sortStrings l).Perm l :=
  List.perm_insertionSort strLE l

theorem sortStrings_sorted_le (l : List String) : (sortStrings l).Sorted (· ≤ ·) := by
  have h : (sortStrings l).Sorted strLE := List.sorted_insertionSort strLE l
  exact List.Pairwise.imp (fun {a b} hab => (strLE_iff_le a b).1 hab) h

theorem sortStrings_sorted_lt {l : List String} (h : l.Nodup) :
    (sortStrings l).Sorted (· < ·) :=
  (sortStrings_sorted_le l).lt_of_le ((sortStrings_perm l).nodup_iff.2 h)

theorem sortStrings_nil : sortStrings [] = [] := rfl

theorem writeField_append (f : Formatter) (b : Buffer) (entry : Entry) (field : String) :
    writeField f b entry field = b ++ fieldSegment f entry field := by
  unfold fieldSegment writeField
  cases f.HideKeys <;> cases f.NoFieldsSpace <;> simp [String.append_assoc]

theorem foldl_writeField (f : Formatter) (entry : Entry) (fields : List String) (b : Buffer) :
    fields.foldl (fun b field => writeField f b entry field) b =
      b ++ concat (fields.map (fieldSegment f entry)) := by
  induction fields generalizing b with
  | nil => simp [concat]
  | cons x xs ih =>
    simp only [List.foldl_cons, List.map_cons, concat]
    rw [ih, writeField_append, String.append_assoc]

theorem concat_append (l₁ l₂ : List String) : concat (l₁ ++ l₂) = concat l₁ ++ concat l₂ := by
  induction l₁ with
  | nil => simp [concat]
  | cons x xs ih => simp [concat, ih, String.append_assoc]

theorem writeFields_eq (f : Formatter) (b : Buffer) (entry : Entry) :
    writeFields f b entry = b ++ concat ((sortStrings entry.Data.range).map (fieldSegment f entry)) := by
  unfold writeFields
  split
  · exact foldl_writeField f entry _ b
  · rename_i h
    have h0 : entry.Data.range = [] := by
      have : entry.Data.entries = [] := List.length_eq_zero.1 (by simpa [Fields.len] using h)
      simp [Fields.range, this]
    simp [h0, sortStrings_nil, concat]

theorem get?_isSome_iff (d : Fields) (k : String) : (d.get? k).isSome ↔ k ∈ d.range := by
  unfold Fields.get? Fields.range
  induction d.entries with
  | nil => simp
  | cons p ps ih =>
    obtain ⟨a, v⟩ := p
    simp only [List.lookup_cons, List.map_cons, List.mem_cons]
    by_cases h : k = a
    · subst h; simp
    · have hb : (k == a) = false := by simpa using h
      simp [hb, ih, h]

theorem foldl_orderedStep (f : Formatter) (entry : Entry) (order : List String)
    (s : OrderedLoop) :
    order.foldl (orderedStep f entry) s =
      { foundFieldsMap := (presentNames entry order).reverse ++ s.foundFieldsMap,
        length := s.length - (presentNames entry order).length,
        b := s.b ++ concat ((presentNames entry order).map (fieldSegment f entry)) } := by
  induction order generalizing s with
  | nil => simp [presentNames, concat]
  | cons x xs ih =>
    rw [List.foldl_cons, ih]
    unfold orderedStep presentNames
    cases hx : entry.Data.get? x with
    | none => simp [hx, List.filter_cons]
    | some v =>
      simp only [hx, List.filter_cons, Option.isSome_some, if_true, List.reverse_cons,
        List.append_assoc, List.singleton_append, List.length_cons, List.map_cons, concat]
      rw [writeField_append, String.append_assoc]
      congr 1
      push_cast
      ring

theorem writeOrderedFields_eq (f : Formatter) (b : Buffer) (entry : Entry) :
    writeOrderedFields f b entry =
      if (entry.Data.len : Int) - (presentNames entry (f.FieldsOrder.getD [])).length > 0 then
        b ++ concat ((presentNames entry (f.FieldsOrder.getD [])).map (fieldSegment f entry)) ++
          concat ((sortStrings (entry.Data.range.filter (fun field =>
            !(presentNames entry (f.FieldsOrder.getD [])).reverse.contains field))).map
              (fieldSegment f entry))
      else b ++ concat ((presentNames entry (f.FieldsOrder.getD [])).map (fieldSegment f entry)) := by
  unfold writeOrderedFields
  simp only [foldl_orderedStep, List.append_nil, foldl_writeField]

theorem presentNames_subset_range (entry : Entry) (order : List String) :
    presentNames entry order ⊆ entry.Data.range := by
  intro x hx
  have := (List.mem_filter.1 hx).2
  exact (get?_isSome_iff _ _).1 (by simpa using this)

theorem mem_presentNames_of_range {entry : Entry} (order : List String) {x : String}
    (hx : x ∈ entry.Data.range) : x ∈ presentNames entry order ↔ x ∈ order := by
  unfold presentNames
  rw [List.mem_filter]
  have := (get?_isSome_iff entry.Data x).2 hx
  simp [this]

theorem filter_notFound_eq (entry : Entry) (order : List String) :
    entry.Data.range.filter (fun field => !(presentNames entry order).reverse.contains field) =
      entry.Data.range.filter (fun field => decide (field ∉ order)) := by
  apply List.filter_congr
  intro x hx
  have := mem_presentNames_of_range order hx
  by_cases h : x ∈ order <;> simp [h, this]

theorem range_covered_of_length_le (entry : Entry) (order : List String) (hnd : order.Nodup)
    (hlen : ¬ ((entry.Data.len : Int) - (presentNames entry order).length > 0)) :
    entry.Data.range.filter (fun field => decide (field ∉ order)) = [] := by
  have hP : (presentNames entry order).Nodup := List.Nodup.filter _ hnd
  have hsub := List.subperm_of_subset hP (presentNames_subset_range entry order)
  have hl : entry.Data.range.length ≤ (presentNames entry order).length := by
    have : entry.Data.range.length = entry.Data.len := by simp [Fields.range, Fields.len]
    omega
  have hperm := hsub.perm_of_length_le hl
  rw [List.filter_eq_nil_iff]
  intro x hx
  have hxP : x ∈ presentNames entry order := hperm.symm.subset hx
  have := (mem_presentNames_of_range order hx).1 hxP
  simp [this]

theorem sortStrings_eq_of_perm {l₁ l₂ : List String} (h : l₁.Perm l₂) :
    sortStrings l₁ = sortStrings l₂ :=
  @List.eq_of_perm_of_sorted String strLE _ _ _
    ((sortStrings_perm l₁).trans (h.trans (sortStrings_perm l₂).symm))
    (List.sorted_insertionSort strLE l₁) (List.sorted_insertionSort strLE l₂)

theorem lookup_perm {l₁ l₂ : List (String × Value)} (h : l₁.Perm l₂)
    (hnd : (l₁.map Prod.fst).Nodup) (k : String) : l₁.lookup k = l₂.lookup k := by
  induction h with
  | nil => rfl
  | cons x _ ih =>
    obtain ⟨a, v⟩ := x
    simp only [List.lookup_cons]
    rw [ih (List.nodup_cons.1 hnd).2]
  | swap x y l =>
    obtain ⟨a, v⟩ := x
    obtain ⟨c, w⟩ := y
    simp only [List.map_cons, List.nodup_cons, List.mem_cons, not_or] at hnd
    have hne : c ≠ a := hnd.1.1
    simp only [List.lookup_cons]
    by_cases h1 : k = a
    · subst h1
      have : (k == c) = false := by simpa using fun h => hne h.symm
      simp [this]
    · have : (k == a) = false := by simpa using h1
      simp [this]
  | trans h₁ _ ih₁ ih₂ =>
    rw [ih₁ hnd, ih₂ ((h₁.map Prod.fst).nodup_iff.1 hnd)]

theorem fieldSegment_congr (f : Formatter) (e₁ e₂ : Entry) (field : String)
    (h : e₁.Data.index field = e₂.Data.index field) :
    fieldSegment f e₁ field = fieldSegment f e₂ field := by
  unfold fieldSegment writeField
  rw [h]

theorem writeOrderedFields_perm (f : Formatter) (b : Buffer) (e₁ e₂ : Entry)
    (h : e₁.Data.entries.Perm e₂.Data.entries) (hwf : e₁.Data.WF) :
    writeOrderedFields f b e₁ = writeOrderedFields f b e₂ := by
  have hget : ∀ k, e₁.Data.get? k = e₂.Data.get? k := fun k => lookup_perm h hwf k
  have hseg : fieldSegment f e₁ = fieldSegment f e₂ := by
    funext k
    exact fieldSegment_congr f e₁ e₂ k (by simp [Fields.index, hget])
  have hlen : e₁.Data.len = e₂.Data.len := h.length_eq
  have hrange : e₁.Data.range.Perm e₂.Data.range := h.map Prod.fst
  have hP : ∀ order, presentNames e₁ order = presentNames e₂ order := by
    intro order
    unfold presentNames
    simp [hget]
  rw [writeOrderedFields_eq, writeOrderedFields_eq, hP, hseg, hlen,
    sortStrings_eq_of_perm (hrange.filter _)]

theorem writeFields_perm (f : Formatter) (b : Buffer) (e₁ e₂ : Entry)
    (h : e₁.Data.entries.Perm e₂.Data.entries) (hwf : e₁.Data.WF) :
    writeFields f b e₁ = writeFields f b e₂ := by
  have hget : ∀ k, e₁.Data.get? k = e₂.Data.get? k := fun k => lookup_perm h hwf k
  have hseg : fieldSegment f e₁ = fieldSegment f e₂ := by
    funext k
    exact fieldSegment_congr f e₁ e₂ k (by simp [Fields.index, hget])
  have hrange : e₁.Data.range.Perm e₂.Data.range := h.map Prod.fst
  rw [writeFields_eq, writeFields_eq, hseg, sortStrings_eq_of_perm hrange]

/-! ## Field order -/

/-- C1: with `FieldsOrder` nil, the field section written by `writeFields` (and so by
`Format`) is the concatenation of one segment per key of `entry.Data`, the keys taken in
strictly ascending order. -/
theorem writeFields_segments_ascending (f : Formatter) (b : Buffer) (entry : Entry)
    (hnil : f.FieldsOrder = none) (hwf : entry.Data.WF) :
    ∃ names : List String,
      names.Perm entry.Data.range ∧ names.Nodup ∧ names.Sorted (· < ·) ∧
      writeFields f b entry = b ++ concat (names.map (fieldSegment f entry)) ∧
      fieldsText f entry = concat (names.map (fieldSegment f entry)) := by
  refine ⟨sortStrings entry.Data.range, sortStrings_perm _,
    (sortStrings_perm _).nodup_iff.2 hwf, sortStrings_sorted_lt hwf, writeFields_eq f b entry, ?_⟩
  simp [fieldsText, hnil, writeFields_eq]

/-- Witness of C1 on the sample event with fields `{z: 1, a: 2}`. -/
theorem writeFields_segments_ascending_witness :
    ((NewFormatter false).FieldsOrder = none ∧ sampleEntry.Data.WF) ∧
    ∃ names : List String,
      names.Perm sampleEntry.Data.range ∧ names.Nodup ∧ names.Sorted (· < ·) ∧
      writeFields (NewFormatter false) "" sampleEntry =
        "" ++ concat (names.map (fieldSegment (NewFormatter false) sampleEntry)) ∧
      fieldsText (NewFormatter false) sampleEntry =
        concat (names.map (fieldSegment (NewFormatter false) sampleEntry)) :=
  ⟨⟨rfl, by decide⟩,
    writeFields_segments_ascending (NewFormatter false) "" sampleEntry rfl (by decide)⟩

/-- C2: with a non-nil `FieldsOrder` of pairwise distinct names, `writeOrderedFields` writes the
segments of the configured names that are keys of `entry.Data`, in the configured order, and
then the segments of the remaining keys in strictly ascending order; for `FieldsOrder = [a, b]`
and any enumeration of the fields `{c: 1, a: 2, b: 3}` the segments are those of `a`, `b`, `c`. -/
theorem writeOrderedFields_configured_then_sorted (f : Formatter) (b : Buffer) (entry : Entry)
    (order : List String) (horder : f.FieldsOrder = some order) (hnd : order.Nodup)
    (hwf : entry.Data.WF) :
    (∃ rest : List String,
      rest.Perm (entry.Data.range.filter (fun field => decide (field ∉ order))) ∧
      rest.Sorted (· < ·) ∧
      writeOrderedFields f b entry =
        b ++ concat ((order.filter (fun field => (entry.Data.get? field).isSome) ++ rest).map
          (fieldSegment f entry))) ∧
    (∀ items : List (String × Value),
      items.Perm [("c", Value.int 1), ("a", Value.int 2), ("b", Value.int 3)] →
      ∀ hide : Bool,
      writeOrderedFields { Formatter.zero with FieldsOrder := some ["a", "b"], HideKeys := hide }
          "" (orderedEntry items) =
        if hide then "<2> <3> <1> " else "<a:2> <b:3> <c:1> ") := by
  constructor
  · refine ⟨sortStrings (entry.Data.range.filter (fun field => decide (field ∉ order))),
      sortStrings_perm _, sortStrings_sorted_lt (List.Nodup.filter _ hwf), ?_⟩
    rw [writeOrderedFields_eq, horder]
    simp only [Option.getD_some, filter_notFound_eq, List.map_append, concat_append]
    split
    · rw [String.append_assoc]; rfl
    · rename_i hlen
      rw [range_covered_of_length_le entry order hnd hlen]
      simp [sortStrings_nil, concat, presentNames]
  · intro items hperm hide
    have hwf1 : (items.map Prod.fst).Nodup := (hperm.map Prod.fst).nodup_iff.2 (by decide)
    have key := writeOrderedFields_perm
      { Formatter.zero with FieldsOrder := some ["a", "b"], HideKeys := hide } ""
      (orderedEntry items)
      (orderedEntry [("c", Value.int 1), ("a", Value.int 2), ("b", Value.int 3)])
      hperm hwf1
    rw [key]
    cases hide <;> decide

/-- Witness of C2 for `FieldsOrder = [a, b]` and the fields `{c: 1, a: 2, b: 3}`. -/
theorem writeOrderedFields_configured_then_sorted_witness :
    (["a", "b"].Nodup ∧
      (orderedEntry [("c", Value.int 1), ("a", Value.int 2), ("b", Value.int 3)]).Data.WF) ∧
    writeOrderedFields { Formatter.zero with FieldsOrder := some ["a", "b"] } ""
        (orderedEntry [("c", Value.int 1), ("a", Value.int 2), ("b", Value.int 3)]) =
      "<a:2> <b:3> <c:1> " :=
  ⟨⟨by decide, by decide⟩,
    ((writeOrderedFields_configured_then_sorted
      { Formatter.zero with FieldsOrder := some ["a", "b"] } ""
      (orderedEntry [("c", Value.int 1), ("a", Value.int 2), ("b", Value.int 3)])
      ["a", "b"] rfl (by decide) (by decide)).2 _ (List.Perm.refl _) false)⟩

/-- C3: failing input of `writeOrderedFields`: with `FieldsOrder = [a, a]` and the fields
`{a: 1, b: 2}` the segment of `a` is written twice and the segment of `b` is not written,
whichever way the fields are enumerated and whether or not the keys are hidden. -/
theorem writeOrderedFields_duplicate_name_drops_field :
    ∀ hide : Bool,
      writeOrderedFields { Formatter.zero with FieldsOrder := some ["a", "a"], HideKeys := hide }
          "" (orderedEntry [("a", Value.int 1), ("b", Value.int 2)]) =
        (if hide then "<1> <1> " else "<a:1> <a:1> ") ∧
      writeOrderedFields { Formatter.zero with FieldsOrder := some ["a", "a"], HideKeys := hide }
          "" (orderedEntry [("b", Value.int 2), ("a", Value.int 1)]) =
        (if hide then "<1> <1> " else "<a:1> <a:1> ") := by
  decide

/-! ## The line as a concatenation of its parts -/

theorem doPrintfLoop_append (fuel : Nat) (format : List Char) (out : String) :
    doPrintfLoop fuel format out = out ++ doPrintfLoop fuel format "" := by
  induction fuel generalizing format out with
  | zero => simp [doPrintfLoop]
  | succ n ih =>
    have step : ∀ (rest : List Char) (x : String),
        doPrintfLoop n rest (out ++ x) = out ++ doPrintfLoop n rest x := by
      intro rest x
      rw [ih rest (out ++ x), ih rest x, String.append_assoc]
    unfold doPrintfLoop
    simp only [String.append_assoc, String.empty_append]
    repeat' split
    all_goals first
      | rfl
      | simp only [String.append_assoc]
      | exact step _ _

theorem Fprintf0_append (b : Buffer) (format : String) :
    Fprintf0 b format = b ++ Fprintf0 "" format := doPrintfLoop_append _ _ _

theorem writeCaller_append (f : Formatter) (b : Buffer) (entry : Entry) :
    writeCaller f b entry = b ++ writeCaller f "" entry := by
  unfold writeCaller
  split
  · split
    · simp
    · split
      · rw [Fprintf0_append, Fprintf0_append ("" ++ _)]; simp [String.append_assoc]
      · simp [String.append_assoc]
  · simp

theorem writeFields_append (f : Formatter) (b : Buffer) (entry : Entry) :
    writeFields f b entry = b ++ writeFields f "" entry := by
  rw [writeFields_eq, writeFields_eq f ""]; simp

theorem writeOrderedFields_append (f : Formatter) (b : Buffer) (entry : Entry) :
    writeOrderedFields f b entry = b ++ writeOrderedFields f "" entry := by
  rw [writeOrderedFields_eq, writeOrderedFields_eq f ""]
  split <;> simp [String.append_assoc]

theorem sliceTo_levelString (level : Level) :
    sliceTo (LevelString level) 4 = Except.ok (String.mk ((LevelString level).data.take 4)) ∧
    sliceTo (ToUpper (LevelString level)) 4 =
      Except.ok (String.mk ((ToUpper (LevelString level)).data.take 4)) := by
  unfold LevelString
  repeat' split
  all_goals exact ⟨rfl, rfl⟩

theorem sliceTo_levelName (f : Formatter) (entry : Entry) :
    sliceTo (levelName f entry) 4 = Except.ok (String.mk ((levelName f entry).data.take 4)) := by
  unfold levelName
  split
  · exact (sliceTo_levelString _).1
  · exact (sliceTo_levelString _).2

theorem Format_eq_parts (f : Formatter) (goId : Int) (entry : Entry) :
    Format f goId entry =
      (ctxIdText f goId).map (fun id =>
        (callerFirstText f entry ++ levelColorText f entry ++ id ++
          entry.Time.Format (timestampLayout f) ++ " [" ++ levelShown f entry ++ "]" ++
          afterLevelText f entry, none)) := by
  have h1 : ∀ b : Buffer, (if f.CallerFirst then writeCaller f b entry else b) =
      b ++ callerFirstText f entry := by
    intro b; unfold callerFirstText; split
    · exact writeCaller_append f b entry
    · simp
  have h2 : ∀ b : Buffer,
      (if !f.NoColors then b ++ colorEscape (getColorByLevel entry.Level) else b) =
        b ++ levelColorText f entry := by
    intro b; unfold levelColorText; split <;> simp
  have h3 : ∀ b : Buffer,
      (if !f.DisableGoId then (getCtxId f goId).map (fun s => b ++ s) else pure b) =
        (ctxIdText f goId).map (fun s => b ++ s) := by
    intro b; unfold ctxIdText; split
    · rfl
    · simp [Except.map, pure, Except.pure]
  have h4 : ∀ b : Buffer,
      (if f.ShowFullLevel then (pure (b ++ levelName f entry) : Except Panic Buffer)
        else (sliceTo (levelName f entry) 4).map (fun s => b ++ s)) =
        pure (b ++ levelShown f entry) := by
    intro b; unfold levelShown; split
    · rfl
    · rw [sliceTo_levelName]; rfl
  have h5 : ∀ b : Buffer, (if !f.CallerFirst then writeCaller f b entry else b) =
      b ++ callerAfterText f entry := by
    intro b; unfold callerAfterText; split
    · exact writeCaller_append f b entry
    · simp
  have h6 : ∀ b : Buffer, (if !f.NoColors && f.NoFieldsColors then b ++ resetEscape else b) =
      b ++ resetBeforeFieldsText f := by
    intro b; unfold resetBeforeFieldsText; split <;> simp
  have h7 : ∀ b : Buffer,
      (if f.FieldsOrder.isNone then writeFields f b entry else writeOrderedFields f b entry) =
        b ++ fieldsText f entry := by
    intro b; unfold fieldsText; split
    · exact writeFields_append f b entry
    · exact writeOrderedFields_append f b entry
  have h8 : ∀ b : Buffer, (if f.NoFieldsSpace then b ++ " " else b) = b ++ fieldsSpaceText f := by
    intro b; unfold fieldsSpaceText; split <;> simp
  have h9 : ∀ b : Buffer, (if !f.NoColors && !f.NoFieldsColors then b ++ resetEscape else b) =
      b ++ resetAfterFieldsText f := by
    intro b; unfold resetAfterFieldsText; split <;> simp
  have h10 : ∀ b : Buffer,
      (if f.TrimMessages then b ++ TrimSpace entry.Message else b ++ entry.Message) =
        b ++ messageText f entry := by
    intro b; unfold messageText; split <;> rfl
  have hn : (if f.NoUppercaseLevel then LevelString entry.Level
      else ToUpper (LevelString entry.Level)) = levelName f entry := rfl
  have ht : (if f.TimestampFormat = "" then RFC3339 else f.TimestampFormat) =
      timestampLayout f := rfl
  unfold Format
  simp only [hn, ht, h1, h2, h3, h4, h5, h6, h7, h8, h9, h10]
  unfold afterLevelText
  cases ctxIdText f goId with
  | error p => rfl
  | ok id =>
    simp only [Except.map, bind, Except.bind, pure, Except.pure, String.append_assoc,
      String.empty_append]

theorem lookup_filter_ne (l : List (Int × String)) (goId : Int) :
    (l.filter (fun p => p.1 != goId)).lookup goId = none := by
  rw [List.lookup_eq_none_iff]
  intro p hp
  have := (List.mem_filter.1 hp).2
  simpa [bne_iff_ne, ne_comm] using this

theorem getCtxId_eq (f : Formatter) (goId : Int) (c : CtxMap) (l : RWMutex)
    (hc : f.CtxMap = some c) (hl : c.locker = some l) :
    getCtxId f goId =
      Except.ok (match registryGet c.m goId with
        | none => "<" ++ fmtD goId ++ "> "
        | some ctxId => "<" ++ ctxId ++ "> ") := by
  unfold getCtxId
  rw [hc]
  simp only [deref, bind, Except.bind, hl]
  cases registryGet c.m goId <;> rfl

/-! ## Context id -/

/-- C4: with `DisableGoId` false, after `SetCtxId(s)` has run on goroutine `g`, `Format` on `g`
writes `<s> ` immediately before the time stamp; after `CleatCtxId` has then run on `g`, it
writes `<g> ` with the decimal goroutine id instead; and whenever the registry holds no entry
for `g` the segment written is `<g> `, so the segment is never left out. -/
theorem Format_ctxId_after_set_and_clear (f f₁ : Formatter) (goId : Int) (ctxId : String)
    (entry : Entry) (hd : f.DisableGoId = false) (hset : SetCtxId f goId ctxId = Except.ok f₁) :
    Format f₁ goId entry =
      Except.ok (callerFirstText f entry ++ levelColorText f entry ++ ("<" ++ ctxId ++ "> ") ++
        entry.Time.Format (timestampLayout f) ++ " [" ++ levelShown f entry ++ "]" ++
        afterLevelText f entry, none) ∧
    (∃ f₂ : Formatter, CleatCtxId f₁ goId = Except.ok f₂ ∧
      Format f₂ goId entry =
        Except.ok (callerFirstText f entry ++ levelColorText f entry ++
          ("<" ++ fmtD goId ++ "> ") ++
          entry.Time.Format (timestampLayout f) ++ " [" ++ levelShown f entry ++ "]" ++
          afterLevelText f entry, none)) ∧
    (∀ (c : CtxMap) (l : RWMutex), f.CtxMap = some c → c.locker = some l →
      registryGet c.m goId = none →
      Format f goId entry =
        Except.ok (callerFirstText f entry ++ levelColorText f entry ++
          ("<" ++ fmtD goId ++ "> ") ++
          entry.Time.Format (timestampLayout f) ++ " [" ++ levelShown f entry ++ "]" ++
          afterLevelText f entry, none)) := by
  obtain ⟨fo, tf, hk, nc, nfc, nfs, sfl, nul, tm, cf, ccf, dg, cm⟩ := f
  simp only at hd
  subst hd
  cases cm with
  | none => simp [SetCtxId, deref, bind, Except.bind] at hset
  | some c =>
    obtain ⟨m, lk⟩ := c
    cases lk with
    | none => simp [SetCtxId, deref, bind, Except.bind] at hset
    | some l =>
      cases m with
      | none => simp [SetCtxId, deref, bind, Except.bind, registrySet] at hset
      | some reg =>
        simp only [SetCtxId, deref, bind, Except.bind, registrySet, pure, Except.pure,
          Except.ok.injEq] at hset
        subst hset
        refine ⟨?_, ⟨_, rfl, ?_⟩, ?_⟩
        · rw [Format_eq_parts]
          simp only [ctxIdText, Bool.not_false, if_true]
          rw [getCtxId_eq _ goId _ l rfl rfl]
          simp [registryGet, Except.map]
          rfl
        · rw [Format_eq_parts]
          simp only [ctxIdText, Bool.not_false, if_true]
          rw [getCtxId_eq _ goId _ l rfl rfl]
          simp only [registryDelete, registryGet, Option.map_some', Option.getD_some,
            List.filter_cons, bne_self_eq_false, Bool.false_eq_true, if_false,
            List.filter_filter, Bool.and_self, lookup_filter_ne, Except.map]
          rfl
        · intro c l' hc hl hnone
          rw [Format_eq_parts]
          simp only [ctxIdText, Bool.not_false, if_true]
          rw [getCtxId_eq _ goId c l' hc hl, hnone]
          rfl

/-- Witness of C4: the formatter of `NewFormatter(false)`, goroutine 7, context id `req-42`. -/
theorem Format_ctxId_after_set_and_clear_witness :
    ((NewFormatter false).DisableGoId = false ∧
      SetCtxId (NewFormatter false) 7 "req-42" =
        Except.ok { NewFormatter false with
          CtxMap := some { m := some [(7, "req-42")], locker := some {} } }) ∧
    Format { NewFormatter false with
        CtxMap := some { m := some [(7, "req-42")], locker := some {} } } 7 sampleEntry =
      Except.ok (callerFirstText (NewFormatter false) sampleEntry ++
        levelColorText (NewFormatter false) sampleEntry ++ ("<" ++ "req-42" ++ "> ") ++
        sampleEntry.Time.Format (timestampLayout (NewFormatter false)) ++ " [" ++
        levelShown (NewFormatter false) sampleEntry ++ "]" ++
        afterLevelText (NewFormatter false) sampleEntry, none) ∧
    Format (NewFormatter false) 7 sampleEntry =
      Except.ok (callerFirstText (NewFormatter false) sampleEntry ++
        levelColorText (NewFormatter false) sampleEntry ++ ("<" ++ fmtD 7 ++ "> ") ++
        sampleEntry.Time.Format (timestampLayout (NewFormatter false)) ++ " [" ++
        levelShown (NewFormatter false) sampleEntry ++ "]" ++
        afterLevelText (NewFormatter false) sampleEntry, none) :=
  ⟨⟨rfl, rfl⟩,
    (Format_ctxId_after_set_and_clear (NewFormatter false) _ 7 "req-42" sampleEntry rfl rfl).1,
    (Format_ctxId_after_set_and_clear (NewFormatter false) _ 7 "req-42" sampleEntry rfl rfl).2.2
      _ _ rfl rfl rfl⟩

/-! ## Level text -/

/-- C5: for each of the seven levels `Format` writes, between ` [` and `]`, the first four
characters of the level name when `ShowFullLevel` is false and the whole name when it is true,
in upper case unless `NoUppercaseLevel` is set, in which case in lower case. -/
theorem Format_level_text (f : Formatter) (goId : Int) (entry : Entry)
    (hlevel : isNamedLevel entry.Level) :
    Format f goId entry =
      (ctxIdText f goId).map (fun id =>
        (callerFirstText f entry ++ levelColorText f entry ++ id ++
          entry.Time.Format (timestampLayout f) ++ " [" ++ levelShown f entry ++ "]" ++
          afterLevelText f entry, none)) ∧
    levelShown f entry =
      (if f.ShowFullLevel then
        (if f.NoUppercaseLevel then
          ["panic", "fatal", "error", "warning", "info", "debug", "trace"]
        else ["PANIC", "FATAL", "ERROR", "WARNING", "INFO", "DEBUG", "TRACE"])
      else
        (if f.NoUppercaseLevel then ["pani", "fata", "erro", "warn", "info", "debu", "trac"]
        else ["PANI", "FATA", "ERRO", "WARN", "INFO", "DEBU", "TRAC"])).getD entry.Level "" ∧
    (levelShown f entry).data =
      (if f.ShowFullLevel then (levelName f entry).data
        else (levelName f entry).data.take 4) ∧
    (levelShown f entry).length =
      (if f.ShowFullLevel then (LevelString entry.Level).length else 4) ∧
    levelName f entry =
      (if f.NoUppercaseLevel then LevelString entry.Level
        else ToUpper (LevelString entry.Level)) := by
  refine ⟨Format_eq_parts f goId entry, ?_, ?_, ?_, rfl⟩
  · unfold levelShown levelName
    unfold isNamedLevel at hlevel
    generalize entry.Level = level at hlevel
    interval_cases level <;> cases f.ShowFullLevel <;> cases f.NoUppercaseLevel <;> decide
  · unfold levelShown
    split <;> rfl
  · unfold levelShown levelName
    unfold isNamedLevel at hlevel
    generalize entry.Level = level at hlevel
    interval_cases level <;> cases f.ShowFullLevel <;> cases f.NoUppercaseLevel <;> decide

/-- Witness of C5: the sample event, of level warn, with the formatter of `NewFormatter(false)`
and with `ShowFullLevel` set. -/
theorem Format_level_text_witness :
    isNamedLevel sampleEntry.Level ∧
    levelShown (NewFormatter false) sampleEntry = "WARN" ∧
    levelShown { NewFormatter false with ShowFullLevel := true } sampleEntry = "WARNING" :=
  ⟨by decide,
    (Format_level_text (NewFormatter false) 7 sampleEntry (by decide)).2.1.trans (by decide),
    (Format_level_text { NewFormatter false with ShowFullLevel := true } 7 sampleEntry
      (by decide)).2.1.trans (by decide)⟩

/-! ## Panics -/

/-- C6, as stated, fails: the zero value `Formatter{}` has `DisableGoId` false and a nil
`CtxMap`, so `getCtxId` dereferences a nil pointer and `Format` panics. -/
theorem Format_zero_value_panics :
    Format Formatter.zero 7 sampleEntry = Except.error Panic.nilDereference := by
  rfl

/-- C6, amended: for every event (any level value, any field map, with or without caller) and
every formatter whose `DisableGoId` is true or whose `CtxMap` and lock are not nil, the slice
`level[:4]` is within bounds and `Format` returns bytes and a nil error; the slice is within
bounds for every formatter. -/
theorem Format_never_fails (f : Formatter) (goId : Int) (entry : Entry)
    (hreg : f.DisableGoId = true ∨
      ∃ (c : CtxMap) (l : RWMutex), f.CtxMap = some c ∧ c.locker = some l) :
    (∃ s : String, sliceTo (levelName f entry) 4 = Except.ok s) ∧
    4 ≤ (levelName f entry).length ∧
    ∃ bytes : String, Format f goId entry = Except.ok (bytes, none) := by
  have hs := sliceTo_levelName f entry
  refine ⟨⟨_, hs⟩, ?_, ?_⟩
  · unfold sliceTo at hs
    by_contra hlt
    simp [hlt] at hs
  · rw [Format_eq_parts]
    unfold ctxIdText
    rcases hreg with hd | ⟨c, l, hc, hl⟩
    · simp [hd, Except.map, pure, Except.pure]
    · cases hd : f.DisableGoId
      · rw [getCtxId_eq f goId c l hc hl]
        simp [Except.map]
      · simp [Except.map, pure, Except.pure]

/-- Witness of C6: the formatter of `NewFormatter(false)` on an event of unknown level 9 with a
nil field map, and the zero value with `DisableGoId` set. -/
theorem Format_never_fails_witness :
    ((NewFormatter false).DisableGoId = true ∨
      ∃ (c : CtxMap) (l : RWMutex), (NewFormatter false).CtxMap = some c ∧ c.locker = some l) ∧
    ∃ bytes : String,
      Format (NewFormatter false) 7 { sampleEntry with Level := 9, Data := { items := none } } =
        Except.ok (bytes, none) :=
  ⟨Or.inr ⟨_, _, rfl, rfl⟩,
    (Format_never_fails (NewFormatter false) 7
      { sampleEntry with Level := 9, Data := { items := none } }
      (Or.inr ⟨_, _, rfl, rfl⟩)).2.2⟩

/-! ## Colours and separators -/

/-- C7: failing input of `Format`: with `NoColors` set and an event that carries caller
information, `writeCaller` still writes the escape of the caller colour, so the line contains
the escape character, whether the caller block is written first or after the level. -/
theorem Format_NoColors_caller_escape :
    Format { NewFormatter true with NoColors := true } 7 callerEntry =
      Except.ok ("T(2006-01-02T15:04:05Z07:00) [WARN]" ++ String.mk [ESC] ++
        "[35m (main.go:12 main.f) <2> <1>  hi \n", none) ∧
    ESC ∈ ("T(2006-01-02T15:04:05Z07:00) [WARN]" ++ String.mk [ESC] ++
        "[35m (main.go:12 main.f) <2> <1>  hi \n").data ∧
    Format { NewFormatter true with NoColors := true, CallerFirst := true } 7 callerEntry =
      Except.ok (String.mk [ESC] ++
        "[35m (main.go:12 main.f) T(2006-01-02T15:04:05Z07:00) [WARN]<2> <1>  hi \n", none) ∧
    Format { NewFormatter true with NoColors := true } 7 sampleEntry =
      Except.ok ("T(2006-01-02T15:04:05Z07:00) [WARN]<2> <1>  hi \n", none) :=
  ⟨rfl, by decide, rfl, rfl⟩

/-- C8, as stated, fails: with `HideKeys` set, a value whose text holds a colon gives a
segment that holds a colon. -/
theorem writeField_HideKeys_value_colon :
    writeField { Formatter.zero with HideKeys := true } ""
        (orderedEntry [("k", Value.str "a:b")]) "k" = "<a:b> " ∧
    ':' ∈ (writeField { Formatter.zero with HideKeys := true } ""
        (orderedEntry [("k", Value.str "a:b")]) "k").data := by
  decide

/-- C8, amended: with `HideKeys` set the segment is `<value>`, without the field name and the
colon after it, and it holds a colon exactly when the text of the value does; with `HideKeys`
not set the segment is `<name:value>` and holds a colon for every field name. -/
theorem writeField_segment_colon (f : Formatter) (b : Buffer) (entry : Entry) (field : String) :
    writeField f b entry field =
      b ++ (if f.HideKeys then "<" ++ fmtV (entry.Data.index field) ++ ">"
        else "<" ++ field ++ ":" ++ fmtV (entry.Data.index field) ++ ">") ++
        (if f.NoFieldsSpace then "" else " ") ∧
    (':' ∈ (fieldSegment f entry field).data ↔
      (f.HideKeys = false ∨ ':' ∈ (fmtV (entry.Data.index field)).data)) := by
  constructor
  · unfold writeField
    cases f.HideKeys <;> cases f.NoFieldsSpace <;> simp [String.append_assoc]
  · unfold fieldSegment writeField
    cases f.HideKeys <;> cases f.NoFieldsSpace <;> simp [String.data_append]

/-! ## The sample line -/

/-- C9, as stated, fails: the line written for the sample event by the formatter of
`NewFormatter(false)` with `NoColors` set is not `<id> T [WARN] <1> <2> hi \n`, whatever the
texts of the id and of the time stamp. -/
theorem Format_sample_line_differs :
    ¬ ∃ id stamp : String,
      Format { NewFormatter false with NoColors := true } 7 sampleEntry =
        Except.ok ("<" ++ id ++ "> " ++ stamp ++ " [WARN] <1> <2> hi \n", none) := by
  rintro ⟨id, stamp, h⟩
  have hval : Format { NewFormatter false with NoColors := true } 7 sampleEntry =
      Except.ok ("<7> T(2006-01-02T15:04:05Z07:00) [WARN]<2> <1>  hi \n", none) := rfl
  rw [hval] at h
  have h2 := congrArg (fun s : String => (s.data.reverse.take 12)) (Prod.mk.inj (Except.ok.inj h)).1
  simp only [String.data_append, List.reverse_append] at h2
  rw [List.take_append_of_le_length (by decide)] at h2
  revert h2
  decide

/-- C9, amended: for the event with level warn, time `T`, message `" hi "` and fields
`{z: 1, a: 2}` in either enumeration, no caller, the formatter of `NewFormatter(false)` with
`NoColors` set and any registry writes exactly `<id> T' [WARN]<2> <1>  hi \n`, where `id` is the
context id registered for the goroutine, or else its decimal id, and `T'` is `T` rendered with
the layout that `Format` takes when `TimestampFormat` is empty. -/
theorem Format_sample_line (reg : List (Int × String)) (l : RWMutex) (goId : Int) (T : Time) :
    Format (plainFormatter reg l) goId { sampleEntry with Time := T } =
      Except.ok ("<" ++ (match reg.lookup goId with
          | some ctxId => ctxId
          | none => fmtD goId) ++ "> " ++ T.Format (timestampLayout (plainFormatter reg l)) ++
        " [WARN]<2> <1>  hi \n", none) ∧
    Format (plainFormatter reg l) goId
      { sampleEntry with
        Time := T, Data := { items := some [("a", Value.int 2), ("z", Value.int 1)] } } =
      Except.ok ("<" ++ (match reg.lookup goId with
          | some ctxId => ctxId
          | none => fmtD goId) ++ "> " ++ T.Format (timestampLayout (plainFormatter reg l)) ++
        " [WARN]<2> <1>  hi \n", none) ∧
    (plainFormatter reg l).TimestampFormat = "" := by
  refine ⟨?_, ?_, rfl⟩
  all_goals
    rw [Format_eq_parts]
    simp only [ctxIdText, plainFormatter, NewFormatter, Formatter.zero, Bool.not_false, if_true]
    rw [getCtxId_eq _ goId _ l rfl rfl]
    simp only [registryGet, Option.getD_some, Except.map]
    cases reg.lookup goId <;> simp [String.append_assoc] <;> rfl

/-- C10: `getColorByLevel` gives gray (37) for trace and debug, yellow (33) for warn, red (31)
for error, fatal and panic, and blue (36) for info and every other level value; when
`NoColors` is not set, `Format` writes the escape of that colour, after the caller block
written first and before the context id. -/
theorem getColorByLevel_table (f : Formatter) (goId : Int) (entry : Entry) :
    getColorByLevel TraceLevel = 37 ∧ getColorByLevel DebugLevel = 37 ∧
    getColorByLevel WarnLevel = 33 ∧
    getColorByLevel ErrorLevel = 31 ∧ getColorByLevel FatalLevel = 31 ∧
    getColorByLevel PanicLevel = 31 ∧
    getColorByLevel InfoLevel = 36 ∧ (∀ level : Level, 6 < level → getColorByLevel level = 36) ∧
    colorEscape 37 = "\x1b[37m" ∧ colorEscape 33 = "\x1b[33m" ∧ colorEscape 31 = "\x1b[31m" ∧
    colorEscape 36 = "\x1b[36m" ∧
    Format f goId entry =
      (ctxIdText f goId).map (fun id =>
        (callerFirstText f entry ++
          (if f.NoColors then ""
            else String.mk [ESC] ++ "[" ++ fmtD (getColorByLevel entry.Level) ++ "m") ++ id ++
          entry.Time.Format (timestampLayout f) ++ " [" ++ levelShown f entry ++ "]" ++
          afterLevelText f entry, none)) := by
  refine ⟨rfl, rfl, rfl, rfl, rfl, rfl, rfl, ?_, by decide, by decide, by decide, by decide, ?_⟩
  · intro level hl
    unfold getColorByLevel DebugLevel TraceLevel WarnLevel ErrorLevel FatalLevel PanicLevel
    have h0 : level ≠ 0 := by rintro rfl; exact absurd hl (by decide)
    have h1 : level ≠ 1 := by rintro rfl; exact absurd hl (by decide)
    have h2 : level ≠ 2 := by rintro rfl; exact absurd hl (by decide)
    have h3 : level ≠ 3 := by rintro rfl; exact absurd hl (by decide)
    have h5 : level ≠ 5 := by rintro rfl; exact absurd hl (by decide)
    have h6 : level ≠ 6 := by rintro rfl; exact absurd hl (by decide)
    simp [h0, h1, h2, h3, h5, h6, colorBlue]
  · rw [Format_eq_parts]
    have : levelColorText f entry = (if f.NoColors then ""
        else String.mk [ESC] ++ "[" ++ fmtD (getColorByLevel entry.Level) ++ "m") := by
      unfold levelColorText colorEscape escOpen
      cases f.NoColors
      · simp only [Bool.not_false, if_true, Bool.false_eq_true, if_false]
        rfl
      · rfl
    rw [this]

/-! ## Custom caller text -/

/-- C11: failing input of `writeCaller`: the text returned by the custom caller formatter is
passed to `fmt.Fprintf` as the format, so a directive in it is expanded: `:%d` is written as
`:%!d(MISSING)`, a final `%` as `%!(NOVERB)`, and `%%` as a single `%`; text without a percent
sign is written unchanged. -/
theorem writeCaller_custom_text_is_format :
    writeCaller { Formatter.zero with CustomCallerFormatter := some directiveCaller } ""
        callerEntry = String.mk [ESC] ++ "[35m (main.go:%!d(MISSING)) " ∧
    writeCaller { Formatter.zero with CustomCallerFormatter := some percentCaller } ""
        callerEntry = String.mk [ESC] ++ "[35m 100%!(NOVERB)" ∧
    writeCaller { Formatter.zero with CustomCallerFormatter := some (fun _ => "50%% of %s") } ""
        callerEntry = String.mk [ESC] ++ "[35m50% of %!s(MISSING)" ∧
    writeCaller { Formatter.zero with CustomCallerFormatter := some (fun c => c.Function) } ""
        callerEntry = String.mk [ESC] ++ "[35mmain.f" ∧
    directiveCaller { File := "main.go", Line := 12, Function := "main.f" } = " (main.go:%d) " := by
  decide

/-! ## Determinism -/

/-- C12: the line does not depend on the order in which the fields of `entry.Data` are
enumerated: two enumerations of the same field map give the same bytes from `writeFields`, from
`writeOrderedFields` and from `Format`, for every formatter (nil or non-nil `FieldsOrder`),
registry and goroutine id; `Format` is a function of these inputs. -/
theorem Format_enumeration_independent (f : Formatter) (goId : Int) (b : Buffer) (entry : Entry)
    (items : List (String × Value)) (hperm : entry.Data.entries.Perm items)
    (hwf : entry.Data.WF) :
    writeFields f b { entry with Data := { items := some items } } = writeFields f b entry ∧
    writeOrderedFields f b { entry with Data := { items := some items } } =
      writeOrderedFields f b entry ∧
    Format f goId { entry with Data := { items := some items } } = Format f goId entry := by
  have h1 : ∀ b, writeFields f b entry =
      writeFields f b { entry with Data := { items := some items } } :=
    fun b => writeFields_perm f b entry _ hperm hwf
  have h2 : ∀ b, writeOrderedFields f b entry =
      writeOrderedFields f b { entry with Data := { items := some items } } :=
    fun b => writeOrderedFields_perm f b entry _ hperm hwf
  refine ⟨(h1 b).symm, (h2 b).symm, ?_⟩
  rw [Format_eq_parts, Format_eq_parts]
  have hf : fieldsText f { entry with Data := { items := some items } } = fieldsText f entry := by
    unfold fieldsText
    rw [← h1, ← h2]
  have ha : afterLevelText f { entry with Data := { items := some items } } =
      afterLevelText f entry := by
    unfold afterLevelText
    rw [hf]
    rfl
  rw [ha]
  rfl

/-- Witness of C12: the sample fields `{z: 1, a: 2}` enumerated as `a`, `z`. -/
theorem Format_enumeration_independent_witness :
    (sampleEntry.Data.entries.Perm [("a", Value.int 2), ("z", Value.int 1)] ∧
      sampleEntry.Data.WF) ∧
    Format (NewFormatter false) 7
        { sampleEntry with Data := { items := some [("a", Value.int 2), ("z", Value.int 1)] } } =
      Format (NewFormatter false) 7 sampleEntry :=
  ⟨⟨List.Perm.swap _ _ _, by decide⟩,
    (Format_enumeration_independent (NewFormatter false) 7 "" sampleEntry
      [("a", Value.int 2), ("z", Value.int 1)] (List.Perm.swap _ _ _) (by decide)).2.2⟩

/-! ## Disabled context id -/

/-- C13: with the context id disabled, by `SetDisableGoId(true)` or by `NewFormatter(true)`,
`Format` does not read the registry: it writes the time stamp right after the colour escape,
with no `<id> ` segment, and returns the same bytes for every registry (also a nil one) and
every goroutine id; `SetDisableGoId` sets `DisableGoId` and leaves every other member of the
formatter, the registry included, as it was. -/
theorem Format_ctxId_disabled (f : Formatter) (goId goId' : Int) (entry : Entry)
    (ctxMap : Option CtxMap) (v : Bool) :
    Format (SetDisableGoId f true) goId entry =
      Except.ok (callerFirstText f entry ++ levelColorText f entry ++
        entry.Time.Format (timestampLayout f) ++ " [" ++ levelShown f entry ++ "]" ++
        afterLevelText f entry, none) ∧
    Format { SetDisableGoId f true with CtxMap := ctxMap } goId' entry =
      Format (SetDisableGoId f true) goId entry ∧
    Format { NewFormatter true with CtxMap := ctxMap } goId' entry =
      Except.ok (callerFirstText (NewFormatter true) entry ++
        levelColorText (NewFormatter true) entry ++
        entry.Time.Format (timestampLayout (NewFormatter true)) ++ " [" ++
        levelShown (NewFormatter true) entry ++ "]" ++
        afterLevelText (NewFormatter true) entry, none) ∧
    SetDisableGoId f v = { f with DisableGoId := v } ∧
    (SetDisableGoId f v).DisableGoId = v ∧
    (SetDisableGoId f v).CtxMap = f.CtxMap ∧
    (SetDisableGoId f v).FieldsOrder = f.FieldsOrder ∧
    (SetDisableGoId f v).TimestampFormat = f.TimestampFormat ∧
    (SetDisableGoId f v).HideKeys = f.HideKeys ∧
    (SetDisableGoId f v).NoColors = f.NoColors ∧
    (SetDisableGoId f v).NoFieldsColors = f.NoFieldsColors ∧
    (SetDisableGoId f v).NoFieldsSpace = f.NoFieldsSpace ∧
    (SetDisableGoId f v).ShowFullLevel = f.ShowFullLevel ∧
    (SetDisableGoId f v).NoUppercaseLevel = f.NoUppercaseLevel ∧
    (SetDisableGoId f v).TrimMessages = f.TrimMessages ∧
    (SetDisableGoId f v).CallerFirst = f.CallerFirst ∧
    (SetDisableGoId f v).CustomCallerFormatter = f.CustomCallerFormatter := by
  have key : ∀ (f' : Formatter) (g : Int), f'.DisableGoId = true →
      Format f' g entry =
        Except.ok (callerFirstText f' entry ++ levelColorText f' entry ++
          entry.Time.Format (timestampLayout f') ++ " [" ++ levelShown f' entry ++ "]" ++
          afterLevelText f' entry, none) := by
    intro f' g hd
    rw [Format_eq_parts]
    simp [ctxIdText, hd, Except.map, pure, Except.pure]
  refine ⟨?_, ?_, ?_, rfl, rfl, rfl, rfl, rfl, rfl, rfl, rfl, rfl, rfl, rfl, rfl, rfl, rfl⟩
  · rw [key _ goId rfl]; rfl
  · rw [key _ goId' rfl, key _ goId rfl]; rfl
  · rw [key _ goId' rfl]; rfl

/-! ## Absent caller and absent fields -/

theorem writeCaller_of_not_HasCaller (f : Formatter) (b : Buffer) (entry : Entry)
    (h : entry.HasCaller = false) : writeCaller f b entry = b := by
  unfold writeCaller
  simp [h]

theorem range_eq_nil_of_items (entry : Entry)
    (h : entry.Data.items = none ∨ entry.Data.items = some []) : entry.Data.entries = [] := by
  unfold Fields.entries
  rcases h with h | h <;> simp [h]

/-- C14: an event without caller information gets no caller block, so that the line is the
concatenation of the other parts and is the same for every `CallerFirst` and every
`CustomCallerFormatter`; an event whose field map is nil or empty gets an empty field section
from `writeFields` and from `writeOrderedFields`, for a nil and for a non-nil `FieldsOrder`. -/
theorem Format_absent_caller_and_fields (f : Formatter) (goId : Int) (b : Buffer)
    (entry : Entry) :
    (entry.HasCaller = false →
      writeCaller f b entry = b ∧
      Format f goId entry =
        (ctxIdText f goId).map (fun id =>
          (levelColorText f entry ++ id ++ entry.Time.Format (timestampLayout f) ++ " [" ++
            levelShown f entry ++ "]" ++ resetBeforeFieldsText f ++ fieldsText f entry ++
            fieldsSpaceText f ++ resetAfterFieldsText f ++ messageText f entry ++ "\n", none)) ∧
      ∀ (first : Bool) (custom : Option (Frame → String)),
        Format { f with CallerFirst := first, CustomCallerFormatter := custom } goId entry =
          Format f goId entry) ∧
    ((entry.Data.items = none ∨ entry.Data.items = some []) →
      writeFields f b entry = b ∧ writeOrderedFields f b entry = b ∧
      fieldsText f entry = "" ∧
      ∀ order : Option (List String), fieldsText { f with FieldsOrder := order } entry = "") := by
  constructor
  · intro h
    have hc : ∀ f' : Formatter, callerFirstText f' entry = "" ∧ callerAfterText f' entry = "" := by
      intro f'
      unfold callerFirstText callerAfterText
      simp [writeCaller_of_not_HasCaller _ _ entry h]
    have hparts : ∀ f' : Formatter, Format f' goId entry =
        (ctxIdText f' goId).map (fun id =>
          (levelColorText f' entry ++ id ++ entry.Time.Format (timestampLayout f') ++ " [" ++
            levelShown f' entry ++ "]" ++ resetBeforeFieldsText f' ++ fieldsText f' entry ++
            fieldsSpaceText f' ++ resetAfterFieldsText f' ++ messageText f' entry ++ "\n",
            none)) := by
      intro f'
      rw [Format_eq_parts]
      unfold afterLevelText
      rw [(hc f').1, (hc f').2]
      simp [String.append_assoc]
    refine ⟨writeCaller_of_not_HasCaller f b entry h, hparts f, ?_⟩
    intro first custom
    rw [hparts, hparts f]
    rfl
  · intro h
    have he := range_eq_nil_of_items entry h
    have hr : entry.Data.range = [] := by simp [Fields.range, he]
    have hl : entry.Data.len = 0 := by simp [Fields.len, he]
    have hp : ∀ order, presentNames entry order = [] := by
      intro order
      unfold presentNames
      rw [List.filter_eq_nil_iff]
      intro x _
      have := (get?_isSome_iff entry.Data x).not.2 (by simp [hr])
      simpa using this
    have h1 : ∀ (f' : Formatter) (b' : Buffer), writeFields f' b' entry = b' := by
      intro f' b'
      rw [writeFields_eq, hr]
      simp [sortStrings_nil, concat]
    have h2 : ∀ (f' : Formatter) (b' : Buffer), writeOrderedFields f' b' entry = b' := by
      intro f' b'
      rw [writeOrderedFields_eq, hp, hl]
      simp [concat]
    have h3 : ∀ f' : Formatter, fieldsText f' entry = "" := by
      intro f'
      unfold fieldsText
      split
      · exact h1 f' ""
      · exact h2 f' ""
    exact ⟨h1 f b, h2 f b, h3 f, fun order => h3 _⟩

/-- Witness of C14: the sample event has no caller; with a nil field map its field section is
empty. -/
theorem Format_absent_caller_and_fields_witness :
    sampleEntry.HasCaller = false ∧
    writeCaller (NewFormatter false) "x" sampleEntry = "x" ∧
    ({ sampleEntry with Data := { items := none } } : Entry).Data.items = none ∧
    fieldsText { NewFormatter false with FieldsOrder := some ["a"] }
      { sampleEntry with Data := { items := none } } = "" :=
  ⟨rfl,
    ((Format_absent_caller_and_fields (NewFormatter false) 7 "x" sampleEntry).1 rfl).1,
    rfl,
    ((Format_absent_caller_and_fields (NewFormatter false) 7 ""
      { sampleEntry with Data := { items := none } }).2 (Or.inl rfl)).2.2.2 (some ["a"])⟩

/-! ## Registry operations -/

theorem lookup_filter_of_ne (l : List (Int × String)) {goId g : Int} (h : g ≠ goId) :
    (l.filter (fun p => p.1 != goId)).lookup g = l.lookup g := by
  induction l with
  | nil => rfl
  | cons p ps ih =>
    obtain ⟨a, v⟩ := p
    by_cases ha : a = goId
    · subst ha
      have hga : (g == a) = false := by simpa using h
      simp [List.filter_cons, List.lookup_cons, hga, ih]
    · have hne : (a != goId) = true := by simpa using ha
      simp only [List.filter_cons, hne, if_true, List.lookup_cons, ih]

theorem count_keys_filter_of_ne (l : List (Int × String)) {goId g : Int} (h : g ≠ goId) :
    ((l.filter (fun p => p.1 != goId)).map Prod.fst).count g = (l.map Prod.fst).count g := by
  induction l with
  | nil => rfl
  | cons p ps ih =>
    obtain ⟨a, v⟩ := p
    by_cases ha : a = goId
    · subst ha
      have : a ≠ g := fun e => h e.symm
      simp [List.filter_cons, List.count_cons, this, ih]
    · have hne : (a != goId) = true := by simpa using ha
      simp only [List.filter_cons, hne, if_true, List.map_cons, List.count_cons, ih]

theorem not_mem_keys_filter (l : List (Int × String)) (goId : Int) :
    goId ∉ (l.filter (fun p => p.1 != goId)).map Prod.fst := by
  intro hmem
  obtain ⟨p, hp, rfl⟩ := List.mem_map.1 hmem
  have := (List.mem_filter.1 hp).2
  simp at this

theorem nodup_keys_filter (l : List (Int × String)) (goId : Int)
    (h : (l.map Prod.fst).Nodup) : ((l.filter (fun p => p.1 != goId)).map Prod.fst).Nodup :=
  List.Nodup.sublist (List.Sublist.map Prod.fst (List.filter_sublist l)) h

theorem filter_eq_self_of_lookup_none (l : List (Int × String)) (goId : Int)
    (h : l.lookup goId = none) : l.filter (fun p => p.1 != goId) = l := by
  rw [List.filter_eq_self]
  intro p hp
  have := (List.lookup_eq_none_iff.1 h) p hp
  simpa [bne_iff_ne, ne_comm] using this

theorem Format_congr_registry (f f' : Formatter) (goId : Int) (entry : Entry)
    (c c' : CtxMap) (l l' : RWMutex) (hc : f.CtxMap = some c) (hc' : f'.CtxMap = some c')
    (hl : c.locker = some l) (hl' : c'.locker = some l')
    (hget : registryGet c'.m goId = registryGet c.m goId)
    (hrest : { f' with CtxMap := f.CtxMap } = f) :
    Format f' goId entry = Format f goId entry := by
  have hid : ctxIdText f' goId = ctxIdText f goId := by
    have hd : f'.DisableGoId = f.DisableGoId := by rw [← hrest]
    unfold ctxIdText
    rw [hd, getCtxId_eq f' goId c' l' hc' hl', getCtxId_eq f goId c l hc hl, hget]
  rw [Format_eq_parts, Format_eq_parts, hid]
  have hparts : ∀ id : String,
      callerFirstText f' entry ++ levelColorText f' entry ++ id ++
          entry.Time.Format (timestampLayout f') ++ " [" ++ levelShown f' entry ++ "]" ++
          afterLevelText f' entry =
        callerFirstText f entry ++ levelColorText f entry ++ id ++
          entry.Time.Format (timestampLayout f) ++ " [" ++ levelShown f entry ++ "]" ++
          afterLevelText f entry := by
    intro id
    have e1 : callerFirstText { f' with CtxMap := f.CtxMap } entry = callerFirstText f' entry := rfl
    have e2 : levelColorText { f' with CtxMap := f.CtxMap } entry = levelColorText f' entry := rfl
    have e3 : timestampLayout { f' with CtxMap := f.CtxMap } = timestampLayout f' := rfl
    have e4 : levelShown { f' with CtxMap := f.CtxMap } entry = levelShown f' entry := rfl
    have e5 : afterLevelText { f' with CtxMap := f.CtxMap } entry = afterLevelText f' entry := rfl
    rw [← e1, ← e2, ← e3, ← e4, ← e5, hrest]
  simp only [hparts]

/-- C15: `SetCtxId` run on goroutine `g` makes the entry of `g` the given id, `CleatCtxId` run
on `g` removes the entry of `g` and changes nothing when there is none; both leave the entry of
every other goroutine as it was, so the registry keeps one entry per identity at most and
`Format` on another goroutine returns the same bytes before and after. -/
theorem registry_operations_frame (f f₁ : Formatter) (goId : Int) (ctxId : String)
    (hset : SetCtxId f goId ctxId = Except.ok f₁) :
    f₁.ctxIdOf goId = some ctxId ∧
    f₁.registryKeys.count goId = 1 ∧
    (∀ g : Int, g ≠ goId →
      f₁.ctxIdOf g = f.ctxIdOf g ∧ f₁.registryKeys.count g = f.registryKeys.count g ∧
      ∀ entry : Entry, Format f₁ g entry = Format f g entry) ∧
    (f.registryKeys.Nodup → f₁.registryKeys.Nodup) ∧
    ∃ f₂ : Formatter, CleatCtxId f goId = Except.ok f₂ ∧
      f₂.ctxIdOf goId = none ∧
      f₂.registryKeys.count goId = 0 ∧
      (∀ g : Int, g ≠ goId →
        f₂.ctxIdOf g = f.ctxIdOf g ∧ f₂.registryKeys.count g = f.registryKeys.count g ∧
        ∀ entry : Entry, Format f₂ g entry = Format f g entry) ∧
      (f.registryKeys.Nodup → f₂.registryKeys.Nodup) ∧
      (f.ctxIdOf goId = none → f₂ = f) := by
  obtain ⟨fo, tf, hk, nc, nfc, nfs, sfl, nul, tm, cf, ccf, dg, cm⟩ := f
  cases cm with
  | none => simp [SetCtxId, deref, bind, Except.bind] at hset
  | some c =>
    obtain ⟨m, lk⟩ := c
    cases lk with
    | none => simp [SetCtxId, deref, bind, Except.bind] at hset
    | some l =>
      cases m with
      | none => simp [SetCtxId, deref, bind, Except.bind, registrySet] at hset
      | some reg =>
        simp only [SetCtxId, deref, bind, Except.bind, registrySet, pure, Except.pure,
          Except.ok.injEq] at hset
        subst hset
        refine ⟨?_, ?_, ?_, ?_, ⟨_, rfl, ?_, ?_, ?_, ?_, ?_⟩⟩
        · simp [Formatter.ctxIdOf, Formatter.registry, registryGet]
        · have := not_mem_keys_filter reg goId
          show List.count goId (goId :: (reg.filter (fun p => p.1 != goId)).map Prod.fst) = 1
          rw [List.count_cons_self, List.count_eq_zero_of_not_mem this]
        · intro g hg
          have hgne : (g == goId) = false := by simpa using hg
          have hne : goId ≠ g := fun e => hg e.symm
          refine ⟨?_, ?_, ?_⟩
          · simp [Formatter.ctxIdOf, Formatter.registry, registryGet, List.lookup_cons, hgne,
              lookup_filter_of_ne reg hg]
          · show List.count g (goId :: (reg.filter (fun p => p.1 != goId)).map Prod.fst) =
              List.count g (reg.map Prod.fst)
            rw [List.count_cons_of_ne hg, count_keys_filter_of_ne reg hg]
          · intro entry
            refine Format_congr_registry _ _ g entry _ _ l l rfl rfl rfl rfl ?_ rfl
            simp [registryGet, List.lookup_cons, hgne, lookup_filter_of_ne reg hg]
        · intro hnd
          simp only [Formatter.registryKeys, Formatter.registry, Option.bind_some,
            Option.getD_some, List.map_cons] at hnd ⊢
          exact List.nodup_cons.2 ⟨not_mem_keys_filter reg goId, nodup_keys_filter reg goId hnd⟩
        · simp [Formatter.ctxIdOf, Formatter.registry, registryGet, registryDelete,
            lookup_filter_ne]
        · simp only [Formatter.registryKeys, Formatter.registry, Option.bind_some,
            registryDelete, Option.map_some', Option.getD_some]
          exact List.count_eq_zero_of_not_mem (not_mem_keys_filter reg goId)
        · intro g hg
          refine ⟨?_, ?_, ?_⟩
          · simp [Formatter.ctxIdOf, Formatter.registry, registryGet, registryDelete,
              lookup_filter_of_ne reg hg]
          · simp only [Formatter.registryKeys, Formatter.registry, Option.bind_some,
              registryDelete, Option.map_some', Option.getD_some]
            exact count_keys_filter_of_ne reg hg
          · intro entry
            refine Format_congr_registry _ _ g entry _ _ l l rfl rfl rfl rfl ?_ rfl
            simp [registryGet, registryDelete, lookup_filter_of_ne reg hg]
        · intro hnd
          simp only [Formatter.registryKeys, Formatter.registry, Option.bind_some,
            registryDelete, Option.map_some', Option.getD_some] at hnd ⊢
          exact nodup_keys_filter reg goId hnd
        · intro hnone
          have hl : reg.lookup goId = none := by
            simpa [Formatter.ctxIdOf, Formatter.registry, registryGet] using hnone
          simp only [registryDelete, Option.map_some', filter_eq_self_of_lookup_none reg goId hl]

/-- Witness of C15: the formatter of `NewFormatter(false)` with the registry `{3: "x"}`, on
which goroutine 7 sets `req-42`; the entry of goroutine 3 stays `x`. -/
theorem registry_operations_frame_witness :
    SetCtxId { NewFormatter false with CtxMap := some { m := some [(3, "x")], locker := some {} } }
        7 "req-42" =
      Except.ok { NewFormatter false with
        CtxMap := some { m := some [(7, "req-42"), (3, "x")], locker := some {} } } ∧
    Formatter.ctxIdOf { NewFormatter false with
        CtxMap := some { m := some [(7, "req-42"), (3, "x")], locker := some {} } } 7 =
      some "req-42" ∧
    Formatter.ctxIdOf { NewFormatter false with
        CtxMap := some { m := some [(7, "req-42"), (3, "x")], locker := some {} } } 3 =
      some "x" :=
  ⟨rfl,
    (registry_operations_frame
      { NewFormatter false with CtxMap := some { m := some [(3, "x")], locker := some {} } }
      _ 7 "req-42" rfl).1,
    (((registry_operations_frame
      { NewFormatter false with CtxMap := some { m := some [(3, "x")], locker := some {} } }
      _ 7 "req-42" rfl).2.2.1 3 (by decide)).1.trans rfl)⟩

/-! ## Time stamp layout -/

/-- C16: failing input of `Format`: with `TimestampFormat` left empty the time stamp is
rendered with the layout `time.RFC3339`, not with `time.StampMilli` as the comment on
`TimestampFormat` says; a non-empty `TimestampFormat` is the layout used. -/
theorem Format_default_layout_RFC3339 :
    (NewFormatter true).TimestampFormat = "" ∧
    timestampLayout (NewFormatter true) = "2006-01-02T15:04:05Z07:00" ∧
    StampMilli = "Jan _2 15:04:05.000" ∧
    timestampLayout (NewFormatter true) ≠ StampMilli ∧
    Format { NewFormatter true with NoColors := true } 7 sampleEntry =
      Except.ok (sampleTime.Format "2006-01-02T15:04:05Z07:00" ++ " [WARN]<2> <1>  hi \n",
        none) ∧
    Format { NewFormatter true with NoColors := true, TimestampFormat := "15:04" } 7 sampleEntry =
      Except.ok (sampleTime.Format "15:04" ++ " [WARN]<2> <1>  hi \n", none) ∧
    sampleTime.Format "2006-01-02T15:04:05Z07:00" ≠ sampleTime.Format StampMilli :=
  ⟨rfl, rfl, rfl, by decide, rfl, rfl, by decide⟩

/-! ## Separators and reset escapes -/

theorem fieldSegment_eq_bracket (f : Formatter) (entry : Entry) (field : String) :
    fieldSegment f entry field =
      fieldBracket f entry field ++ (if f.NoFieldsSpace then "" else " ") := by
  unfold fieldSegment fieldBracket writeField
  cases f.HideKeys <;> cases f.NoFieldsSpace <;> simp [String.append_assoc]

theorem fieldsText_eq_written (f : Formatter) (entry : Entry) :
    fieldsText f entry = concat ((writtenNames f entry).map (fieldSegment f entry)) := by
  unfold fieldsText writtenNames
  split
  · rw [writeFields_eq]; simp
  · rw [writeOrderedFields_eq]
    unfold orderedNames
    split
    · simp [List.map_append, concat_append]
    · simp

/-- C18: every field segment is its bracket `<value>` or `<name:value>`, followed by one space
when `NoFieldsSpace` is false and by nothing when it is true; the field section is the
concatenation of the segments of the written names, and after it `Format` writes one space when
`NoFieldsSpace` is true, whether or not the event has fields, and nothing when it is false. -/
theorem Format_fields_separator (f : Formatter) (goId : Int) (entry : Entry) (field : String) :
    fieldSegment f entry field =
      fieldBracket f entry field ++ (if f.NoFieldsSpace then "" else " ") ∧
    fieldsText f entry =
      concat ((writtenNames f entry).map (fun name =>
        fieldBracket f entry name ++ (if f.NoFieldsSpace then "" else " "))) ∧
    (f.NoFieldsSpace = true →
      fieldsText f entry = concat ((writtenNames f entry).map (fieldBracket f entry))) ∧
    Format f goId entry =
      (ctxIdText f goId).map (fun id =>
        (callerFirstText f entry ++ levelColorText f entry ++ id ++
          entry.Time.Format (timestampLayout f) ++ " [" ++ levelShown f entry ++ "]" ++
          (callerAfterText f entry ++ resetBeforeFieldsText f ++
            concat ((writtenNames f entry).map (fun name =>
              fieldBracket f entry name ++ (if f.NoFieldsSpace then "" else " "))) ++
            (if f.NoFieldsSpace then " " else "") ++
            resetAfterFieldsText f ++ messageText f entry ++ "\n"), none)) := by
  have hseg : fieldSegment f entry = fun name =>
      fieldBracket f entry name ++ (if f.NoFieldsSpace then "" else " ") :=
    funext (fieldSegment_eq_bracket f entry)
  have hfields := fieldsText_eq_written f entry
  rw [hseg] at hfields
  refine ⟨fieldSegment_eq_bracket f entry field, hfields, ?_, ?_⟩
  · intro hns
    rw [hfields]
    simp [hns]
  · rw [Format_eq_parts]
    unfold afterLevelText
    rw [hfields]
    rfl

/-- Witness of C18: the sample event with `NoFieldsSpace` set and the keys shown. -/
theorem Format_fields_separator_witness :
    ({ Formatter.zero with NoFieldsSpace := true } : Formatter).NoFieldsSpace = true ∧
    fieldsText { Formatter.zero with NoFieldsSpace := true } sampleEntry =
      concat ((writtenNames { Formatter.zero with NoFieldsSpace := true } sampleEntry).map
        (fieldBracket { Formatter.zero with NoFieldsSpace := true } sampleEntry)) ∧
    fieldsText { Formatter.zero with NoFieldsSpace := true } sampleEntry = "<a:2><z:1>" :=
  ⟨rfl,
    (Format_fields_separator { Formatter.zero with NoFieldsSpace := true } 7 sampleEntry "a").2.2.1
      rfl,
    by decide⟩

/-- C19: `Format` writes the reset escape `ESC[0m` in one place when `NoColors` is false: after
the level bracket and the caller block and before the field section when `NoFieldsColors` is
true, after the field section and the space that follows it and right before the message when
`NoFieldsColors` is false; when `NoColors` is true it writes no reset escape. -/
theorem Format_reset_escape (f : Formatter) (goId : Int) (entry : Entry) :
    Format f goId entry =
      (ctxIdText f goId).map (fun id =>
        (callerFirstText f entry ++ levelColorText f entry ++ id ++
          entry.Time.Format (timestampLayout f) ++ " [" ++ levelShown f entry ++ "]" ++
          (callerAfterText f entry ++
            (if f.NoColors then "" else if f.NoFieldsColors then "\x1b[0m" else "") ++
            fieldsText f entry ++ fieldsSpaceText f ++
            (if f.NoColors then "" else if f.NoFieldsColors then "" else "\x1b[0m") ++
            messageText f entry ++ "\n"), none)) ∧
    resetBeforeFieldsText f =
      (if f.NoColors then "" else if f.NoFieldsColors then "\x1b[0m" else "") ∧
    resetAfterFieldsText f =
      (if f.NoColors then "" else if f.NoFieldsColors then "" else "\x1b[0m") := by
  have h1 : resetBeforeFieldsText f =
      (if f.NoColors then "" else if f.NoFieldsColors then "\x1b[0m" else "") := by
    unfold resetBeforeFieldsText
    cases f.NoColors <;> cases f.NoFieldsColors <;> decide
  have h2 : resetAfterFieldsText f =
      (if f.NoColors then "" else if f.NoFieldsColors then "" else "\x1b[0m") := by
    unfold resetAfterFieldsText
    cases f.NoColors <;> cases f.NoFieldsColors <;> decide
  refine ⟨?_, h1, h2⟩
  rw [Format_eq_parts]
  unfold afterLevelText
  rw [h1, h2]

/-! ## Ordered path and alphabetical path -/

/-- C20: when `FieldsOrder` is not nil and none of its names is a key of `entry.Data`, as for
the empty non-nil `FieldsOrder`, `writeOrderedFields` writes the bytes that `writeFields`
writes, and `Format` returns what it returns with `FieldsOrder` nil. -/
theorem writeOrderedFields_refines_writeFields (f : Formatter) (goId : Int) (b : Buffer)
    (entry : Entry) (order : List String) (horder : f.FieldsOrder = some order)
    (habsent : ∀ name ∈ order, name ∉ entry.Data.range) :
    writeOrderedFields f b entry = writeFields f b entry ∧
    Format f goId entry = Format { f with FieldsOrder := none } goId entry := by
  have hp : presentNames entry order = [] := by
    unfold presentNames
    rw [List.filter_eq_nil_iff]
    intro x hx
    have := (get?_isSome_iff entry.Data x).not.2 (habsent x hx)
    simpa using this
  have hw : ∀ b' : Buffer, writeOrderedFields f b' entry = writeFields f b' entry := by
    intro b'
    rw [writeOrderedFields_eq, writeFields_eq, horder]
    simp only [Option.getD_some, hp, List.length_nil, List.map_nil, concat, List.reverse_nil]
    split
    · simp
    · rename_i hlen
      have hr : entry.Data.range = [] := by
        have : entry.Data.range.length = entry.Data.len := by simp [Fields.range, Fields.len]
        have h0 : entry.Data.range.length = 0 := by
          simp only [Nat.cast_zero, sub_zero, gt_iff_lt, Nat.cast_pos, not_lt,
            Nat.le_zero_eq, List.length_nil] at hlen
          omega
        exact List.length_eq_zero.1 h0
      simp [hr, sortStrings_nil, concat]
  refine ⟨hw b, ?_⟩
  rw [Format_eq_parts, Format_eq_parts]
  have hf : fieldsText f entry = fieldsText { f with FieldsOrder := none } entry := by
    unfold fieldsText
    simp only [horder, Option.isNone_some, Option.isNone_none, if_true, Bool.false_eq_true,
      if_false]
    rw [hw]
    rfl
  have ha : afterLevelText f entry = afterLevelText { f with FieldsOrder := none } entry := by
    unfold afterLevelText
    rw [hf]
    rfl
  rw [ha]
  rfl

/-- Witness of C20: the sample event with `FieldsOrder = [q]`, where `q` is not a field. -/
theorem writeOrderedFields_refines_writeFields_witness :
    (({ NewFormatter false with FieldsOrder := some ["q"] } : Formatter).FieldsOrder =
        some ["q"] ∧
      ∀ name ∈ ["q"], name ∉ sampleEntry.Data.range) ∧
    writeOrderedFields { NewFormatter false with FieldsOrder := some ["q"] } "" sampleEntry =
      writeFields { NewFormatter false with FieldsOrder := some ["q"] } "" sampleEntry ∧
    Format { NewFormatter false with FieldsOrder := some ["q"] } 7 sampleEntry =
      Format { NewFormatter false with FieldsOrder := none } 7 sampleEntry :=
  ⟨⟨rfl, by decide⟩,
    writeOrderedFields_refines_writeFields { NewFormatter false with FieldsOrder := some ["q"] }
      7 "" sampleEntry ["q"] rfl (by decide)⟩

end LogrusFormatter
